import Mathlib

/-!
# MirageRender: path-tracing integrator and OBJ mesh construction

A shallow embedding of `src/renderers/pathtracer.cpp` (`Pathtracer::render`,
`Pathtracer::radiance`) and of `src/shapes/mesh.cpp` (`Mesh::Mesh`,
`Mesh::loadObj`, `Mesh::loadMTL`).

Conventions of the embedding.

* `float` is exact rational arithmetic (`ℚ`).  The only operation of the
  integrator that has no rational result is a division by zero; its IEEE
  result (an infinity or a NaN) is absorbing under the `+` and `*` that follow
  it in `radiance`, so a colour is an `Option Vec3` whose `none` stands for
  "not a finite value".
* `int` is `Int`; the signed additions of the source (`n + 1`, `xa + w`,
  `ya + h`) are exact, signed overflow being undefined in C++, and statements
  that depend on them carry the hypothesis that the sum is representable.  For
  the depth of `radiance` the run with the 32-bit increment is given as well
  (`radianceInt`); the two agree when `maxRecursion < INT_MAX`.  Conversions to
  `size_t` and back to `int` are explicit (`toSizeT`, `toInt32`).
* The global random generator is an explicit stream with a read position.
* Collaborators whose code is outside the two files (accelerator, material,
  camera, film, display, material factory, the base initialiser `Shape`, file
  contents) are parameters.
* A pointer that the source never tests is an `Option`: a `Material *` is an
  `Option Material` wherever it comes from (constructor argument, factory
  result, library map, triangle).
* Every query the integrator makes to a collaborator is appended to a log, so
  that "does not query" is a statement about the log.
-/

set_option autoImplicit false

namespace Mirage

/-! ## Vectors, rays, random numbers -/

/-- Modelled from the spec: the `vec3` type (its header is not part of the
sources); three `float` channels, here exact rationals. -/
structure Vec3 where
  x : ℚ
  y : ℚ
  z : ℚ
deriving DecidableEq

/-- Modelled from the spec: `vec3 + vec3`, channel by channel. -/
instance : Add Vec3 := ⟨fun a b => ⟨a.x + b.x, a.y + b.y, a.z + b.z⟩⟩

/-- Modelled from the spec: `vec3 * vec3`, channel by channel (`Kd * (...)`). -/
instance : Mul Vec3 := ⟨fun a b => ⟨a.x * b.x, a.y * b.y, a.z * b.z⟩⟩

/-- Modelled from the spec: `float * vec3`, scaling of every channel. -/
instance : SMul ℚ Vec3 := ⟨fun k a => ⟨k * a.x, k * a.y, k * a.z⟩⟩

/-- Modelled from the spec: the default-constructed `vec3` (declarations
`vec3 Lr;`, `vec3 Lt;`), the zero colour. -/
instance : Zero Vec3 := ⟨⟨0, 0, 0⟩⟩

/-- Modelled from the spec: `vec3::negate`. -/
def Vec3.negate (a : Vec3) : Vec3 := ⟨-a.x, -a.y, -a.z⟩

/-- Modelled from the spec: the square of `vec3::length`.  In exact arithmetic
`v.length() > 0.0f` holds exactly when `0 < v.lengthSq`. -/
def Vec3.lengthSq (a : Vec3) : ℚ := a.x * a.x + a.y * a.y + a.z * a.z

/-- The file-level constant `COLOR_NULL(0, 0, 0)` (pathtracer.cpp:12). -/
def COLOR_NULL : Vec3 := ⟨0, 0, 0⟩

/-- Modelled from the spec: a `Ray` as origin and direction (`Ray(P, Wr)`,
`getDirection`); the parametric range plays no part in the integrator. -/
structure Ray where
  getOrigin : Vec3
  getDirection : Vec3
deriving DecidableEq

/-- Modelled from the spec: the shared pseudo-random generator behind
`pseudorand()` (a uniform sample of the unit interval): an arbitrary stream of
non-negative samples and the number already drawn. -/
structure Rng where
  tape : Nat → ℚ
  pos : Nat
  nonneg : ∀ i, 0 ≤ tape i

/-- Modelled from the spec: `pseudorand()` returns the next sample of the
stream and advances the generator. -/
def pseudorand (g : Rng) : ℚ × Rng := (g.tape g.pos, ⟨g.tape, g.pos + 1, g.nonneg⟩)

/-! ## Collaborators of the integrator -/

/-- Modelled from the spec: the material capability consumed by `radiance`.
Direction sampling may draw from the random generator; the three response
evaluations are functions of their arguments. -/
structure Material where
  getKd : Vec3
  getKs : Vec3
  getKe : Vec3
  evalWi : Vec3 → Vec3 → Rng → (Vec3 × Vec3) × Rng
  evalBRDF : Vec3 → Vec3 → Vec3 → Vec3 → ℚ
  evalBTDF : Vec3 → Vec3 → Vec3 → Vec3 → ℚ
  evalPDF : ℚ

/-- Modelled from the spec: the hit record filled by a successful `intersect`. -/
structure Intersection where
  getPosition : Vec3
  getNormal : Vec3
  getMaterial : Material

/-- Modelled from the spec: the accelerator; `intersect(ray, iSect)` returning
`false` is `none`, returning `true` with a filled record is `some`. -/
structure Accelerator where
  intersect : Ray → Option Intersection

/-- Modelled from the spec: the camera; `calcCamRay(i, j, r)` fills `r`. -/
structure Camera where
  calcCamRay : Nat → Nat → Ray

/-- Modelled from the spec: the scene read by the integrator. -/
structure Scene where
  getAccelerator : Accelerator
  getCamera : Camera

/-- The integrator's configuration (constructor, pathtracer.cpp:14). -/
structure Pathtracer where
  m_ka : Vec3
  m_maxRadiance : ℚ
  m_maxRecursion : Int

/-- One query made by `radiance` to a collaborator. -/
inductive Event where
  | intersect (ray : Ray)
  | getKd
  | getKs
  | getKe
  | pseudorand
  | evalWi
  | evalBRDF
  | evalBTDF
  | evalPDF
deriving DecidableEq

/-- The mutable surroundings of `radiance`: the generator and the query log. -/
structure World where
  rng : Rng
  log : List Event

/-- Append queries to the log. -/
def World.record (σ : World) (es : List Event) : World := ⟨σ.rng, σ.log ++ es⟩

/-- What a call of `radiance` produces: the returned colour (`none`: not a
finite value), the surroundings it leaves, and the number of nested levels of
recursive calls that were opened beneath it. -/
structure Outcome where
  value : Option Vec3
  world : World
  nest : Nat

/-! ## `Pathtracer::radiance` -/

/-- The largest-channel expression of pathtracer.cpp:66. -/
def Kd_max (Kd : Vec3) : ℚ :=
  if Kd.x > Kd.y ∧ Kd.x > Kd.z then Kd.x else if Kd.y > Kd.z then Kd.y else Kd.z

/-- The quotient `a / b` of two `float`s: no finite value when `b` is zero. -/
def fdiv (a b : ℚ) : Option ℚ := if b = 0 then none else some (a / b)

/-- The Russian-roulette block, pathtracer.cpp:72-83.  The first component is
`none` when the `else` branch returns from `radiance`, and otherwise the weight
with which execution continues. -/
def roulette (p : ℚ) (n : Int) (weight : ℚ) (σ : World) : Option ℚ × World :=
  if n > 3 ∨ p = 0 then
    let u := (pseudorand σ.rng).1
    let σ1 : World := ⟨(pseudorand σ.rng).2, σ.log ++ [Event.pseudorand]⟩
    if u < p then (some (weight * (1 / p)), σ1) else (none, σ1)
  else
    (some weight, σ)

/-- The return expression of pathtracer.cpp:122,
`weight * Ke + Kd * ((BRDF / PDF) * Lr + (BTDF / PDF) * Lt)`. -/
def combine (weight : ℚ) (Ke Kd : Vec3) (BRDF BTDF PDF : ℚ) (Lr Lt : Option Vec3) :
    Option Vec3 :=
  (fdiv BRDF PDF).bind fun fr =>
  (fdiv BTDF PDF).bind fun ft =>
  Lr.bind fun lr =>
  Lt.bind fun lt =>
  some (weight • Ke + Kd * (fr • lr + ft • lt))

/-- The guarded recursive call of pathtracer.cpp:108-112 and :115-119: the
incoming light along `W` from `P`, a recursive call when `W.length() > 0` and
the default (zero) colour otherwise.  `rad` is `radiance` at depth `n + 1`. -/
def incoming (rad : Ray → ℚ → World → Outcome) (P W : Vec3) (weight : ℚ) (σ : World) :
    Outcome :=
  if 0 < W.lengthSq then
    let L := rad ⟨P, W⟩ weight σ
    ⟨L.value, L.world, L.nest + 1⟩
  else
    ⟨some 0, σ, 0⟩

/-- The part of `radiance` after the roulette block, pathtracer.cpp:85-122.
`rad` is `radiance` at depth `n + 1`. -/
def scatter (rad : Ray → ℚ → World → Outcome) (ray : Ray) (iSect : Intersection)
    (Kd Ke : Vec3) (weight : ℚ) (σ : World) : Outcome :=
  let M := iSect.getMaterial
  let Wo := ray.getDirection.negate
  let P := iSect.getPosition
  let N := iSect.getNormal
  let wi := M.evalWi Wo N σ.rng
  let Wr := wi.1.1
  let Wt := wi.1.2
  let BRDF := M.evalBRDF P N Wr Wo
  let BTDF := M.evalBTDF P N Wt Wo
  let PDF := M.evalPDF
  let σ1 : World :=
    ⟨wi.2, σ.log ++ [Event.evalWi, Event.evalBRDF, Event.evalBTDF, Event.evalPDF]⟩
  let Lr := incoming rad P Wr weight σ1
  let Lt := incoming rad P Wt weight Lr.world
  ⟨combine weight Ke Kd BRDF BTDF PDF Lr.value Lt.value, Lt.world, max Lr.nest Lt.nest⟩

set_option linter.unusedVariables false in
/-- The function `Pathtracer::radiance`, pathtracer.cpp:44-123.  The values
`Ks` (line 62) and `Kd_avg` (line 69) are computed by the source and never
used; of them only the query `getKs` is kept, in the log.  The recursive calls
are the two inside `scatter`, at depth `n + 1`.  The depth is an unbounded
integer and `n + 1` is exact: this is the source's `int` arithmetic as long as
no increment overflows, which holds for `maxRecursion < INT_MAX`
(`radianceInt` is the run with the 32-bit increment). -/
def radiance (pt : Pathtracer) (scene : Scene) (ray : Ray) (weight : ℚ) (n : Int)
    (σ : World) : Outcome :=
  if h : n > pt.m_maxRecursion ∨ weight ≤ 0 then
    ⟨some COLOR_NULL, σ, 0⟩
  else
    let σ1 := σ.record [Event.intersect ray]
    match scene.getAccelerator.intersect ray with
    | none => ⟨some (weight • pt.m_ka), σ1, 0⟩
    | some iSect =>
      let M := iSect.getMaterial
      let Kd := M.getKd
      let Ke := M.getKe
      let σ2 := σ1.record [Event.getKd, Event.getKs, Event.getKe]
      let p := Kd_max Kd
      match roulette p n weight σ2 with
      | (none, σ3) => ⟨some (weight • Ke), σ3, 0⟩
      | (some w, σ3) =>
        scatter (fun r w1 s => radiance pt scene r w1 (n + 1) s) ray iSect Kd Ke w σ3
termination_by (pt.m_maxRecursion + 1 - n).toNat
decreasing_by
  omega

/-- An outcome with its colour scaled by `c`; surroundings and nesting kept. -/
def Outcome.scale (c : ℚ) (o : Outcome) : Outcome :=
  ⟨o.value.map fun v => c • v, o.world, o.nest⟩

/-! ## `Pathtracer::render` -/

/-- The conversion of an `int` to `size_t` (64 bits), as in `size_t j = ya` and
in the comparison `j < ya + h`. -/
def toSizeT (x : Int) : Nat := (x % 2 ^ 64).toNat

/-- The values taken by `i` in `for (size_t i = a; i < b; i++)`, in order. -/
def forRange (a b : Nat) : List Nat := List.range' a (b - a)

/-- Modelled from the spec: the film, as the sequence of `addSample(i, j, colour)`
calls it has received. -/
structure Film where
  added : List (Nat × Nat × Option Vec3)

/-- Modelled from the spec: `Film::addSample`. -/
def Film.addSample (f : Film) (i j : Nat) (c : Option Vec3) : Film := ⟨f.added ++ [(i, j, c)]⟩

/-- Modelled from the spec: `Film::getSample`, the colours accumulated at a pixel. -/
def Film.getSample (f : Film) (i j : Nat) : List (Option Vec3) :=
  (f.added.filter fun e => decide (e.1 = i ∧ e.2.1 = j)).map fun e => e.2.2

/-- What `render` acts on: the surroundings of `radiance`, the film, and the
sequence of `setPixel(i, j, colour)` calls received by the display. -/
structure RenderState where
  world : World
  film : Film
  display : List (Nat × Nat × Vec3)

/-- The body of the inner loop of `render`, pathtracer.cpp:29-39.
`getColorAveraged` is the film sample's averaging, a collaborator. -/
def renderPixel (pt : Pathtracer) (scene : Scene)
    (getColorAveraged : List (Option Vec3) → Vec3) (i j : Nat) (st : RenderState) :
    RenderState :=
  let r_primary := scene.getCamera.calcCamRay i j
  let lambda := radiance pt scene r_primary 1 0 st.world
  let film := st.film.addSample i j lambda.value
  ⟨lambda.world, film, st.display ++ [(i, j, getColorAveraged (film.getSample i j))]⟩

/-- The function `Pathtracer::render`, pathtracer.cpp:19-42. -/
def render (pt : Pathtracer) (scene : Scene) (getColorAveraged : List (Option Vec3) → Vec3)
    (w h xa ya : Int) (st : RenderState) : RenderState :=
  (forRange (toSizeT ya) (toSizeT (ya + h))).foldl
    (fun st j =>
      (forRange (toSizeT xa) (toSizeT (xa + w))).foldl
        (fun st i => renderPixel pt scene getColorAveraged i j st) st)
    st

/-- The pixels `(i, j)` visited by two nested loops, `j` over `js` outside and
`i` over `is` inside, in order. -/
def gridCoords (js is : List Nat) : List (Nat × Nat) :=
  match js with
  | [] => []
  | j :: rest => is.map (fun i => (i, j)) ++ gridCoords rest is

/-- The pixel of a film entry. -/
def pixelOf (e : Nat × Nat × Option Vec3) : Nat × Nat := (e.1, e.2.1)

/-! ## `Mesh::Mesh`, `Mesh::loadObj`, `Mesh::loadMTL`

The text of a file is given line by line, each line already classified by the
leading keyword tested with `line.substr` and with its fields extracted as
`operator>>` extracts them.  A pointer `Material *` is an `Option Material`,
`none` being the null pointer. -/

/-- The ways in which construction of a `Mesh` stops without producing one:
`std::exit(1)`, the `std::out_of_range` thrown by `std::map::at`, and an access
to a `std::vector` outside its bounds (undefined behaviour). -/
inductive MeshError where
  | exit
  | out_of_range
  | undefined
deriving DecidableEq

/-- The conversion of a `size_t` to `int` (32 bits, two's complement), as in
`f.va = vertices.size() + f.va`. -/
def toInt32 (x : Nat) : Int :=
  if x % 2 ^ 32 < 2 ^ 31 then (x % 2 ^ 32 : Nat) else (x % 2 ^ 32 : Nat) - 2 ^ 32

/-- Modelled from the spec: the object-to-world `Transform` handed on to
every triangle; only its identity matters here. -/
structure Transform where
  position : Vec3

/-- Modelled from the spec: the `MaterialInfo` record filled from a material
library. -/
structure MaterialInfo where
  kd : Vec3
  ks : Vec3
  ke : Vec3
  ior : ℚ
  illum : Nat
  r : ℚ
  k : ℚ
  d : ℚ

/-- The material factory, a collaborator whose code is not among the sources:
each `init...Material` returns a `Material *`, which `loadMTL` stores without
testing it (mesh.cpp:330-350); nothing is assumed about the pointer. -/
structure MatFactory where
  initDiffuseMaterial : Vec3 → Vec3 → Option Material
  initGlassMaterial : Vec3 → Vec3 → Vec3 → ℚ → Option Material
  initSpecularMaterial : Vec3 → Vec3 → Vec3 → Option Material
  initGlossyMaterial : Vec3 → Vec3 → Vec3 → ℚ → ℚ → ℚ → Option Material

/-- A line of a material library, as classified by `loadMTL` (mesh.cpp:269-310). -/
inductive MtlLine where
  | newmtl (name : String)
  | Kd (kd : Vec3)
  | Ke (ke : Vec3)
  | Ni (ior : ℚ)
  | illum (illum : Nat)
  | other

/-- A line of a model file, as classified by `loadObj` (mesh.cpp:103-215).  For
a face line `slashes` tells whether the line contains `//`; when it does not,
only `va vb vc` are read and `na nb nc` are whatever the unread fields of the
local `face f;` hold. -/
inductive ObjLine where
  | mtllib (name : String)
  | usemtl (name : String)
  | v (p : Vec3)
  | vn (n : Vec3)
  | f (slashes : Bool) (va vb vc na nb nc : Int)
  | other

/-- The contents of the files under `res/`, by path; `none` when the file
cannot be opened. -/
structure Files where
  obj : String → Option (List ObjLine)
  mtl : String → Option (List MtlLine)

/-- Modelled from the spec: the `face` record of `loadObj`. -/
structure face where
  va : Int
  vb : Int
  vc : Int
  na : Int
  nb : Int
  nc : Int
  material : String

/-- Modelled from the spec: a `Vertex` with position and normal. -/
structure Vertex where
  position : Vec3
  normal : Vec3

/-- Modelled from the spec: a `Triangle(objToWorld, material, verts)`. -/
structure Triangle where
  objToWorld : Transform
  material : Option Material
  verts : Vertex × Vertex × Vertex

/-- The call `std::map::insert`: an existing key keeps its value. -/
def mapInsert {α : Type} (m : List (String × α)) (key : String) (a : α) : List (String × α) :=
  if (m.lookup key).isSome then m else m ++ [(key, a)]

/-- The call `std::map::at`: throws `std::out_of_range` on a missing key. -/
def mapAt {α : Type} (m : List (String × α)) (key : String) : Except MeshError α :=
  match m.lookup key with
  | some a => Except.ok a
  | none => Except.error MeshError.out_of_range

/-- An assignment through `std::map::at`, as in `info_materials.at(name).kd = kd`. -/
def mapModify {α : Type} (m : List (String × α)) (key : String) (g : α → α) :
    Except MeshError (List (String × α)) :=
  match m.lookup key with
  | some _ => Except.ok (m.map fun e => if e.1 = key then (e.1, g e.2) else e)
  | none => Except.error MeshError.out_of_range

/-- The locals `info_materials` and `str_currentMaterial` of `loadMTL`. -/
structure MtlState where
  info_materials : List (String × MaterialInfo)
  str_currentMaterial : String

/-- One turn of the reading loop of `loadMTL`, mesh.cpp:267-310.  `defaultInfo`
is the value-initialised `MaterialInfo()`. -/
def mtlLine (defaultInfo : MaterialInfo) (st : MtlState) (line : MtlLine) :
    Except MeshError MtlState :=
  match line with
  | MtlLine.newmtl name => Except.ok ⟨mapInsert st.info_materials name defaultInfo, name⟩
  | MtlLine.Kd kd =>
    (mapModify st.info_materials st.str_currentMaterial fun i => { i with kd := kd }).map
      fun m => ⟨m, st.str_currentMaterial⟩
  | MtlLine.Ke ke =>
    (mapModify st.info_materials st.str_currentMaterial fun i => { i with ke := ke }).map
      fun m => ⟨m, st.str_currentMaterial⟩
  | MtlLine.Ni ior =>
    (mapModify st.info_materials st.str_currentMaterial fun i => { i with ior := ior }).map
      fun m => ⟨m, st.str_currentMaterial⟩
  | MtlLine.illum illum =>
    (mapModify st.info_materials st.str_currentMaterial fun i => { i with illum := illum }).map
      fun m => ⟨m, st.str_currentMaterial⟩
  | MtlLine.other => Except.ok st

/-- The reading loop of `loadMTL` over the lines of the file. -/
def mtlLines (defaultInfo : MaterialInfo) (st : MtlState) :
    List MtlLine → Except MeshError MtlState
  | [] => Except.ok st
  | line :: rest =>
    match mtlLine defaultInfo st line with
    | Except.ok st1 => mtlLines defaultInfo st1 rest
    | Except.error e => Except.error e

/-- The `switch (matinfo.illum)` of `loadMTL`, mesh.cpp:325-348. -/
def makeMaterial (fac : MatFactory) (matinfo : MaterialInfo) : Option Material :=
  match matinfo.illum with
  | 0 | 1 | 2 => fac.initDiffuseMaterial matinfo.kd matinfo.ke
  | 4 | 6 | 7 | 9 => fac.initGlassMaterial matinfo.kd matinfo.ks matinfo.ke matinfo.ior
  | 3 => fac.initSpecularMaterial matinfo.kd matinfo.ks matinfo.ke
  | 5 => fac.initGlossyMaterial matinfo.kd matinfo.ks matinfo.ke matinfo.r matinfo.k matinfo.d
  | _ => fac.initDiffuseMaterial ⟨1, 1, 1⟩ ⟨0, 0, 0⟩

/-- The function `Mesh::loadMTL`, mesh.cpp:250-354: the returned `int` and the
map `materials` as it leaves it.  The keys of `info_materials` are distinct, so
the order in which its entries are visited does not change what a later lookup
finds. -/
def loadMTL (files : Files) (defaultInfo : MaterialInfo) (fac : MatFactory)
    (m_mtlFileName : String) (materials : List (String × Option Material)) :
    Except MeshError (Int × List (String × Option Material)) :=
  match files.mtl ("res/" ++ m_mtlFileName) with
  | none => Except.ok (1, materials)
  | some lines =>
    match mtlLines defaultInfo ⟨[], ""⟩ lines with
    | Except.error e => Except.error e
    | Except.ok st =>
      Except.ok (0, st.info_materials.foldl
        (fun mats e => mapInsert mats e.1 (makeMaterial fac e.2)) materials)

/-- The locals of `loadObj`, mesh.cpp:84-88. -/
structure ObjState where
  vertices : List Vec3
  normals : List Vec3
  indices : List face
  materials : List (String × Option Material)
  str_currentMaterial : String

/-- The statements `f.va = size + f.va; f.va++;` of mesh.cpp:147-152: the sum
is taken in `size_t` and stored back into the `int`. -/
def relativeIndex (size : Nat) (k : Int) : Int := toInt32 ((size + toSizeT k) % 2 ^ 64) + 1

/-- The index normalisation of a face line, mesh.cpp:145-159 (and :176-206):
all three are taken relative when any of them is negative, and decremented
otherwise. -/
def normalise (size : Nat) (a b c : Int) : Int × Int × Int :=
  if a < 0 ∨ b < 0 ∨ c < 0 then
    (relativeIndex size a, relativeIndex size b, relativeIndex size c)
  else
    (a - 1, b - 1, c - 1)

/-- One turn of the reading loop of `loadObj`, mesh.cpp:101-215. -/
def objLine (files : Files) (defaultInfo : MaterialInfo) (fac : MatFactory) (st : ObjState)
    (line : ObjLine) : Except MeshError ObjState :=
  match line with
  | ObjLine.mtllib name =>
    match loadMTL files defaultInfo fac name st.materials with
    | Except.error e => Except.error e
    | Except.ok (code, materials) =>
      if code ≠ 0 then Except.error MeshError.exit else Except.ok { st with materials := materials }
  | ObjLine.usemtl name =>
    if st.materials.isEmpty then Except.ok st
    else Except.ok { st with str_currentMaterial := name }
  | ObjLine.v p => Except.ok { st with vertices := st.vertices ++ [p] }
  | ObjLine.vn n => Except.ok { st with normals := st.normals ++ [n] }
  | ObjLine.f slashes va vb vc na nb nc =>
    let vs := normalise st.vertices.length va vb vc
    let ns := if slashes then normalise st.normals.length na nb nc else (na, nb, nc)
    Except.ok { st with indices := st.indices
      ++ [⟨vs.1, vs.2.1, vs.2.2, ns.1, ns.2.1, ns.2.2, st.str_currentMaterial⟩] }
  | ObjLine.other => Except.ok st

/-- The reading loop of `loadObj` over the lines of the file. -/
def objLines (files : Files) (defaultInfo : MaterialInfo) (fac : MatFactory) (st : ObjState) :
    List ObjLine → Except MeshError ObjState
  | [] => Except.ok st
  | line :: rest =>
    match objLine files defaultInfo fac st line with
    | Except.ok st1 => objLines files defaultInfo fac st1 rest
    | Except.error e => Except.error e

/-- The access `xs[k]` to a `std::vector<vec3>` with an `int` index. -/
def vecAt (xs : List Vec3) (k : Int) : Except MeshError Vec3 :=
  match xs.get? (toSizeT k) with
  | some p => Except.ok p
  | none => Except.error MeshError.undefined

/-- The body of the triangle loop of `loadObj`, mesh.cpp:225-244. -/
def buildTriangle (m_objToWorld : Transform) (m_material : Option Material) (st : ObjState)
    (fc : face) : Except MeshError Triangle := do
  let pa ← vecAt st.vertices fc.va
  let pb ← vecAt st.vertices fc.vb
  let pc ← vecAt st.vertices fc.vc
  let mtl ←
    if st.str_currentMaterial ≠ "" ∨ ¬ st.materials.isEmpty then
      mapAt st.materials fc.material
    else
      Except.ok m_material
  let ns ←
    if st.normals.length > 0 then do
      let na ← vecAt st.normals fc.na
      let nb ← vecAt st.normals fc.nb
      let nc ← vecAt st.normals fc.nc
      Except.ok (na, nb, nc)
    else
      Except.ok ((0 : Vec3), (0 : Vec3), (0 : Vec3))
  Except.ok ⟨m_objToWorld, mtl, (⟨pa, ns.1⟩, ⟨pb, ns.2.1⟩, ⟨pc, ns.2.2⟩)⟩

/-- The triangle loop of `loadObj`, mesh.cpp:223-245. -/
def buildTriangles (m_objToWorld : Transform) (m_material : Option Material) (st : ObjState) :
    List face → Except MeshError (List Triangle)
  | [] => Except.ok []
  | fc :: rest =>
    match buildTriangle m_objToWorld m_material st fc with
    | Except.error e => Except.error e
    | Except.ok t =>
      match buildTriangles m_objToWorld m_material st rest with
      | Except.error e => Except.error e
      | Except.ok ts => Except.ok (t :: ts)

/-- The function `Mesh::loadObj`, mesh.cpp:82-248: the returned `int` and the
triangles pushed onto `m_triangles`. -/
def loadObj (files : Files) (defaultInfo : MaterialInfo) (m_objToWorld : Transform)
    (m_material : Option Material) (fac : MatFactory) (m_mdlFileName : String) :
    Except MeshError (Int × List Triangle) :=
  match files.obj ("res/" ++ m_mdlFileName) with
  | none => Except.ok (1, [])
  | some lines =>
    match objLines files defaultInfo fac ⟨[], [], [], [], ""⟩ lines with
    | Except.error e => Except.error e
    | Except.ok st =>
      match buildTriangles m_objToWorld m_material st st.indices with
      | Except.error e => Except.error e
      | Except.ok ts => Except.ok (0, ts)

/-- A constructed `Mesh`. -/
structure Mesh where
  m_objToWorld : Transform
  m_material : Option Material
  m_matFactory : MatFactory
  m_mdlFileName : String
  m_triangles : List Triangle

/-- The base initialiser `Shape(o2w, m)` of `Mesh::Mesh`, whose code is not
among the sources, as a parameter: either the values it leaves in the members
`m_objToWorld` and `m_material`, or the way in which it stops construction. -/
abbrev ShapeInit :=
  Transform → Option Material → Except MeshError (Transform × Option Material)

/-- Modelled from the spec: the base initialiser `Shape(o2w, m)` (shape.cpp is
missing).  A shape "owns or references geometry and a material": the
initialiser stores its two arguments and tests neither. -/
def Shape.store : ShapeInit := fun o2w m => Except.ok (o2w, m)

/-- The constructor `Mesh::Mesh`, mesh.cpp:14-29, over a base initialiser
`shape`: the base is initialised first, then the body tests the factory and
loads the model. -/
def Mesh.constructWith (shape : ShapeInit) (files : Files) (defaultInfo : MaterialInfo)
    (o2w : Transform) (m : Option Material) (matFactory : Option MatFactory)
    (fileName : String) : Except MeshError Mesh :=
  match shape o2w m with
  | Except.error e => Except.error e
  | Except.ok (m_objToWorld, m_material) =>
    match matFactory with
    | none => Except.error MeshError.exit
    | some fac =>
      match loadObj files defaultInfo m_objToWorld m_material fac fileName with
      | Except.error e => Except.error e
      | Except.ok (code, ts) =>
        if code ≠ 0 then Except.error MeshError.exit
        else Except.ok ⟨m_objToWorld, m_material, fac, fileName, ts⟩

/-- The constructor `Mesh::Mesh`, mesh.cpp:14-29, with the base initialiser
that stores its two arguments (`m_objToWorld`, `m_material`). -/
def Mesh.construct (files : Files) (defaultInfo : MaterialInfo) (o2w : Transform)
    (m : Option Material) (matFactory : Option MatFactory) (fileName : String) :
    Except MeshError Mesh :=
  Mesh.constructWith Shape.store files defaultInfo o2w m matFactory fileName

/-! ## `Pathtracer::radiance` on machine integers

`radiance` above takes the depth as an unbounded integer and passes the exact
`n + 1` on.  The source's depth is an `int`; the definitions below run the same
body with the `int` increment and a bounded call stack, to tell where the two
agree. -/

/-- The `int` value of `n + 1`: the sum reduced to 32 bits in two's complement,
so that `INT_MAX + 1` is `INT_MIN` (signed overflow is undefined in C++; this is
the result on the usual targets). -/
def incInt (n : Int) : Int := toInt32 ((n + 1) % 2 ^ 32).toNat

/-- The body of `Pathtracer::radiance`, pathtracer.cpp:46-122, with its two
recursive calls made through `rad` (`radiance_eq_body` states that `radiance`
is this body over itself at depth `n + 1`). -/
def radianceBody (rad : Ray → ℚ → World → Outcome) (pt : Pathtracer) (scene : Scene)
    (ray : Ray) (weight : ℚ) (n : Int) (σ : World) : Outcome :=
  if n > pt.m_maxRecursion ∨ weight ≤ 0 then
    ⟨some COLOR_NULL, σ, 0⟩
  else
    let σ1 := σ.record [Event.intersect ray]
    match scene.getAccelerator.intersect ray with
    | none => ⟨some (weight • pt.m_ka), σ1, 0⟩
    | some iSect =>
      let M := iSect.getMaterial
      let Kd := M.getKd
      let Ke := M.getKe
      let σ2 := σ1.record [Event.getKd, Event.getKs, Event.getKe]
      let p := Kd_max Kd
      match roulette p n weight σ2 with
      | (none, σ3) => ⟨some (weight • Ke), σ3, 0⟩
      | (some w, σ3) => scatter rad ray iSect Kd Ke w σ3

/-- The run of `Pathtracer::radiance` with `int` depth arithmetic on a call
stack that has room for `frames` nested calls: each call takes one frame and
its recursive calls are made at depth `incInt n`; a call for which no frame is
left returns no colour. -/
def radianceInt (pt : Pathtracer) (scene : Scene) :
    Nat → Ray → ℚ → Int → World → Outcome
  | 0 => fun _ _ _ σ => ⟨none, σ, 0⟩
  | frames + 1 => fun ray weight n σ =>
    radianceBody (fun r w s => radianceInt pt scene frames r w (incInt n) s) pt scene ray
      weight n σ

/-! ## Concrete scenes used to exercise the definitions -/

/-- A generator that returns `a / b` at every draw. -/
def constRng (a b : Nat) : Rng :=
  ⟨fun _ => (a : ℚ) / (b : ℚ), 0, fun _ => div_nonneg (Nat.cast_nonneg a) (Nat.cast_nonneg b)⟩

/-- Fresh surroundings: nothing drawn, nothing logged, every sample `a / b`. -/
def freshWorld (a b : Nat) : World := ⟨constRng a b, []⟩

/-- A camera that sends every pixel along the z axis from the pixel's position. -/
def pixelCamera : Camera := ⟨fun i j => ⟨⟨i, j, 0⟩, ⟨0, 0, 1⟩⟩⟩

/-- A scene without geometry: every ray misses. -/
def emptyScene : Scene := ⟨⟨fun _ => none⟩, pixelCamera⟩

/-- The ray from the origin along the z axis. -/
def zRay : Ray := ⟨⟨0, 0, 0⟩, ⟨0, 0, 1⟩⟩

/-- An integrator with ambient colour `(1/10, 1/10, 1/10)` and `maxRecursion = 5`. -/
def demoTracer : Pathtracer := ⟨⟨1 / 10, 1 / 10, 1 / 10⟩, 1, 5⟩

/-- A surface material of uniform diffuse `kd` and emissive `ke` whose sampled
directions are both zero (nothing is reflected or transmitted), with unit
responses and sampling density `pdf`. -/
def lamp (kd ke pdf : ℚ) : Material :=
  ⟨⟨kd, kd, kd⟩, ⟨0, 0, 0⟩, ⟨ke, ke, ke⟩, fun _ _ g => ((⟨0, 0, 0⟩, ⟨0, 0, 0⟩), g),
    fun _ _ _ _ => 1, fun _ _ _ _ => 1, pdf⟩

/-- The hit record of the lamp scene. -/
def lampHit (kd ke pdf : ℚ) : Intersection := ⟨⟨0, 0, 1⟩, ⟨0, 0, -1⟩, lamp kd ke pdf⟩

/-- A scene in which every ray hits a `lamp` surface. -/
def lampScene (kd ke pdf : ℚ) : Scene := ⟨⟨fun _ => some (lampHit kd ke pdf)⟩, pixelCamera⟩

/-- A material that reflects along the surface normal and transmits nothing. -/
def mirror (kd ke : ℚ) : Material :=
  ⟨⟨kd, kd, kd⟩, ⟨0, 0, 0⟩, ⟨ke, ke, ke⟩, fun _ N g => ((N, ⟨0, 0, 0⟩), g),
    fun _ _ _ _ => 1, fun _ _ _ _ => 0, 1⟩

/-- The hit record of the mirror scene. -/
def mirrorHit (kd ke : ℚ) : Intersection := ⟨⟨0, 0, 1⟩, ⟨0, 0, -1⟩, mirror kd ke⟩

/-- A closed scene in which every ray hits a `mirror` surface. -/
def mirrorScene (kd ke : ℚ) : Scene := ⟨⟨fun _ => some (mirrorHit kd ke)⟩, pixelCamera⟩

/-- A value-initialised `MaterialInfo`. -/
def blankInfo : MaterialInfo := ⟨⟨0, 0, 0⟩, ⟨0, 0, 0⟩, ⟨0, 0, 0⟩, 1, 0, 0, 0, 0⟩

/-- A factory whose materials are lamps with the requested diffuse and
emissive red channel. -/
def lampFactory : MatFactory :=
  ⟨fun kd ke => some (lamp kd.x ke.x 1), fun kd _ ke _ => some (lamp kd.x ke.x 1),
    fun kd _ ke => some (lamp kd.x ke.x 1), fun kd _ ke _ _ _ => some (lamp kd.x ke.x 1)⟩

/-- A factory that returns the null pointer from every `init...Material`. -/
def nullFactory : MatFactory :=
  ⟨fun _ _ => none, fun _ _ _ _ => none, fun _ _ _ => none, fun _ _ _ _ _ _ => none⟩

/-- The identity placement. -/
def originTransform : Transform := ⟨⟨0, 0, 0⟩⟩

/-- A directory `res/` holding `rel.obj`: three vertices and one face that
names them by the relative indices `-3 -2 -1`. -/
def relFiles : Files :=
  ⟨fun path =>
      if path = "res/rel.obj" then
        some [ObjLine.v ⟨0, 0, 0⟩, ObjLine.v ⟨1, 0, 0⟩, ObjLine.v ⟨0, 1, 0⟩,
          ObjLine.f false (-3) (-2) (-1) 0 0 0]
      else none,
    fun _ => none⟩

/-- A directory `res/` with the material library `red.mtl` (one material,
`red`) and two models that load it: in `early.obj` a face precedes the first
`usemtl` line, in `late.obj` the only face follows `usemtl red`. -/
def libFiles : Files :=
  ⟨fun path =>
      if path = "res/early.obj" then
        some [ObjLine.mtllib "red.mtl", ObjLine.v ⟨0, 0, 0⟩, ObjLine.v ⟨1, 0, 0⟩,
          ObjLine.v ⟨0, 1, 0⟩, ObjLine.f false 1 2 3 0 0 0, ObjLine.usemtl "red",
          ObjLine.f false 1 2 3 0 0 0]
      else if path = "res/late.obj" then
        some [ObjLine.mtllib "red.mtl", ObjLine.v ⟨0, 0, 0⟩, ObjLine.v ⟨1, 0, 0⟩,
          ObjLine.v ⟨0, 1, 0⟩, ObjLine.usemtl "red", ObjLine.f false 1 2 3 0 0 0]
      else none,
    fun path =>
      if path = "res/red.mtl" then
        some [MtlLine.newmtl "red", MtlLine.Kd ⟨1, 0, 0⟩, MtlLine.illum 1]
      else none⟩

/-- An integrator whose `maxRecursion` is `INT_MAX = 2^31 - 1`. -/
def intMaxTracer : Pathtracer := ⟨⟨1 / 10, 1 / 10, 1 / 10⟩, 1, 2 ^ 31 - 1⟩

/-- An integrator with `maxRecursion = 1`. -/
def shallowTracer : Pathtracer := ⟨⟨1 / 10, 1 / 10, 1 / 10⟩, 1, 1⟩

/-! ## Theorems about `Pathtracer::radiance` -/

/-- Sum of two vectors given by their channels. -/
theorem Vec3.mk_add_mk (a b c d e f : ℚ) :
    (⟨a, b, c⟩ : Vec3) + ⟨d, e, f⟩ = ⟨a + d, b + e, c + f⟩ := rfl

/-- Channel-wise product of two vectors given by their channels. -/
theorem Vec3.mk_mul_mk (a b c d e f : ℚ) :
    (⟨a, b, c⟩ : Vec3) * ⟨d, e, f⟩ = ⟨a * d, b * e, c * f⟩ := rfl

/-- Scaling of a vector given by its channels. -/
theorem Vec3.smul_mk (k a b c : ℚ) : k • (⟨a, b, c⟩ : Vec3) = ⟨k * a, k * b, k * c⟩ := rfl

/-- The default vector by its channels. -/
theorem Vec3.zero_eq : (0 : Vec3) = ⟨0, 0, 0⟩ := rfl

/-- The surroundings of `radiance` once the hit's material coefficients have
been read: the intersection query and the three accessors are logged. -/
theorem record_record (σ : World) (es fs : List Event) :
    (σ.record es).record fs = ⟨σ.rng, σ.log ++ es ++ fs⟩ := rfl

/-- The unfolding of `radiance` below the termination guard on a hit. -/
theorem radiance_hit_eq (pt : Pathtracer) (scene : Scene) (ray : Ray) (weight : ℚ) (n : Int)
    (σ : World) (iSect : Intersection) (hg : ¬ (n > pt.m_maxRecursion ∨ weight ≤ 0))
    (hhit : scene.getAccelerator.intersect ray = some iSect) :
    radiance pt scene ray weight n σ
      = match roulette (Kd_max iSect.getMaterial.getKd) n weight
            ((σ.record [Event.intersect ray]).record
              [Event.getKd, Event.getKs, Event.getKe]) with
        | (none, σ3) => ⟨some (weight • iSect.getMaterial.getKe), σ3, 0⟩
        | (some w, σ3) =>
          scatter (fun r w1 s => radiance pt scene r w1 (n + 1) s) ray iSect
            iSect.getMaterial.getKd iSect.getMaterial.getKe w σ3 := by
  rw [radiance, dif_neg hg]
  simp only [hhit]

/-- The guard of `radiance` is passed when the weight is positive and the depth
is at most the maximum. -/
theorem guard_passed (pt : Pathtracer) (weight : ℚ) (n : Int) (hw : 0 < weight)
    (hn : n ≤ pt.m_maxRecursion) : ¬ (n > pt.m_maxRecursion ∨ weight ≤ 0) := by
  rintro (h | h)
  · exact absurd hn (not_le.mpr h)
  · exact absurd hw (not_lt.mpr h)

/-- The unfolding of `radiance` below the termination guard on a miss. -/
theorem radiance_miss_eq (pt : Pathtracer) (scene : Scene) (ray : Ray) (weight : ℚ) (n : Int)
    (σ : World) (hg : ¬ (n > pt.m_maxRecursion ∨ weight ≤ 0))
    (hmiss : scene.getAccelerator.intersect ray = none) :
    radiance pt scene ray weight n σ
      = ⟨some (weight • pt.m_ka), σ.record [Event.intersect ray], 0⟩ := by
  rw [radiance, dif_neg hg]
  simp only [hmiss]

/-- The unfolding of `radiance` at a hit that leaves the roulette block with
weight `w`: what remains is the part after the block. -/
theorem radiance_survive_eq (pt : Pathtracer) (scene : Scene) (ray : Ray) (weight : ℚ)
    (n : Int) (σ σ3 : World) (iSect : Intersection) (w : ℚ) (hw : 0 < weight)
    (hn : n ≤ pt.m_maxRecursion)
    (hhit : scene.getAccelerator.intersect ray = some iSect)
    (hsurv : roulette (Kd_max iSect.getMaterial.getKd) n weight
        ⟨σ.rng, σ.log ++ [Event.intersect ray] ++ [Event.getKd, Event.getKs, Event.getKe]⟩
      = (some w, σ3)) :
    radiance pt scene ray weight n σ
      = scatter (fun r w1 s => radiance pt scene r w1 (n + 1) s) ray iSect
          iSect.getMaterial.getKd iSect.getMaterial.getKe w σ3 := by
  rw [radiance_hit_eq pt scene ray weight n σ iSect (guard_passed pt weight n hw hn) hhit,
    record_record, hsurv]

/-- The unfolding of `radiance` at a hit, by the cases of the roulette block. -/
theorem radiance_hit_cases (pt : Pathtracer) (scene : Scene) (ray : Ray) (weight : ℚ) (n : Int)
    (σ : World) (iSect : Intersection) (hw : 0 < weight) (hn : n ≤ pt.m_maxRecursion)
    (hhit : scene.getAccelerator.intersect ray = some iSect) :
    radiance pt scene ray weight n σ
      = if n > 3 ∨ Kd_max iSect.getMaterial.getKd = 0 then
          if (pseudorand σ.rng).1 < Kd_max iSect.getMaterial.getKd then
            scatter (fun r w1 s => radiance pt scene r w1 (n + 1) s) ray iSect
              iSect.getMaterial.getKd iSect.getMaterial.getKe
              (weight * (1 / Kd_max iSect.getMaterial.getKd))
              ⟨(pseudorand σ.rng).2,
                σ.log ++ [Event.intersect ray] ++ [Event.getKd, Event.getKs, Event.getKe]
                  ++ [Event.pseudorand]⟩
          else
            ⟨some (weight • iSect.getMaterial.getKe),
              ⟨(pseudorand σ.rng).2,
                σ.log ++ [Event.intersect ray] ++ [Event.getKd, Event.getKs, Event.getKe]
                  ++ [Event.pseudorand]⟩, 0⟩
        else
          scatter (fun r w1 s => radiance pt scene r w1 (n + 1) s) ray iSect
            iSect.getMaterial.getKd iSect.getMaterial.getKe weight
            ⟨σ.rng, σ.log ++ [Event.intersect ray] ++ [Event.getKd, Event.getKs, Event.getKe]⟩ := by
  rw [radiance_hit_eq pt scene ray weight n σ iSect (guard_passed pt weight n hw hn) hhit,
    record_record]
  unfold roulette
  by_cases hd : n > 3 ∨ Kd_max iSect.getMaterial.getKd = 0
  · by_cases hu : (pseudorand σ.rng).1 < Kd_max iSect.getMaterial.getKd
    · simp only [hd, hu, if_true]
    · simp only [hd, hu, if_true, if_false]
  · simp only [hd, if_false]

/-- C1. Termination guard: when `n > maxRecursion` or `weight ≤ 0`, `radiance`
returns the zero colour `(0,0,0)` and leaves the surroundings as they were: the
log gains no accelerator, material or generator query and the generator has not
advanced. -/
theorem radiance_guard (pt : Pathtracer) (scene : Scene) (ray : Ray) (weight : ℚ) (n : Int)
    (σ : World) (h : n > pt.m_maxRecursion ∨ weight ≤ 0) :
    (radiance pt scene ray weight n σ).value = some ⟨0, 0, 0⟩
      ∧ (radiance pt scene ray weight n σ).world = σ := by
  rw [radiance, dif_pos h]
  exact ⟨rfl, rfl⟩

/-- Witness of C1 on the empty scene at depth `6 > 5`. -/
theorem radiance_guard_witness :
    ((6 : Int) > demoTracer.m_maxRecursion ∨ (1 : ℚ) ≤ 0)
      ∧ (radiance demoTracer emptyScene zRay 1 6 (freshWorld 0 1)).value = some ⟨0, 0, 0⟩
      ∧ (radiance demoTracer emptyScene zRay 1 6 (freshWorld 0 1)).world = freshWorld 0 1 :=
  ⟨Or.inl (by decide), radiance_guard demoTracer emptyScene zRay 1 6 (freshWorld 0 1)
    (Or.inl (by decide))⟩

/-- C2, as stated, fails: at depth `n = maxRecursion = 5` with weight `1` on a
scene where the ray misses, `radiance` returns the ambient colour, not zero. -/
theorem radiance_at_max_not_zero :
    (5 : Int) ≥ demoTracer.m_maxRecursion
      ∧ (radiance demoTracer emptyScene zRay 1 5 (freshWorld 0 1)).value
          = some ⟨1 / 10, 1 / 10, 1 / 10⟩
      ∧ (radiance demoTracer emptyScene zRay 1 5 (freshWorld 0 1)).value ≠ some ⟨0, 0, 0⟩ := by
  have hg : ¬ ((5 : Int) > demoTracer.m_maxRecursion ∨ (1 : ℚ) ≤ 0) := by
    simp [demoTracer]
  have hv : (radiance demoTracer emptyScene zRay 1 5 (freshWorld 0 1)).value
      = some ⟨1 / 10, 1 / 10, 1 / 10⟩ := by
    rw [radiance_miss_eq demoTracer emptyScene zRay 1 5 (freshWorld 0 1) hg rfl]
    show some ((1 : ℚ) • demoTracer.m_ka) = _
    simp [demoTracer, Vec3.smul_mk]
  refine ⟨by decide, hv, ?_⟩
  rw [hv]
  norm_num

/-- C2, amended. Depth termination: `radiance` called with a depth beyond the
configured maximum (`n > maxRecursion`) returns the zero colour, whatever the
scene, the ray and the weight. -/
theorem radiance_beyond_max (pt : Pathtracer) (scene : Scene) (ray : Ray) (weight : ℚ)
    (n : Int) (σ : World) (h : n > pt.m_maxRecursion) :
    (radiance pt scene ray weight n σ).value = some ⟨0, 0, 0⟩ := by
  rw [radiance, dif_pos (Or.inl h)]
  rfl

/-- Witness of the amended C2 at depth `6 > 5`, with a negative weight. -/
theorem radiance_beyond_max_witness :
    (6 : Int) > demoTracer.m_maxRecursion
      ∧ (radiance demoTracer emptyScene zRay (-3) 6 (freshWorld 0 1)).value = some ⟨0, 0, 0⟩ :=
  ⟨by decide, radiance_beyond_max demoTracer emptyScene zRay (-3) 6 (freshWorld 0 1) (by decide)⟩

/-- C3. Miss case: for `weight > 0` and `n ≤ maxRecursion`, when the
accelerator reports no hit, `radiance` returns exactly `weight × ka`; the
generator has not advanced (no sample drawn) and the only query logged is the
intersection itself (no material consulted). -/
theorem radiance_miss (pt : Pathtracer) (scene : Scene) (ray : Ray) (weight : ℚ) (n : Int)
    (σ : World) (hw : 0 < weight) (hn : n ≤ pt.m_maxRecursion)
    (hmiss : scene.getAccelerator.intersect ray = none) :
    (radiance pt scene ray weight n σ).value
        = some ⟨weight * pt.m_ka.x, weight * pt.m_ka.y, weight * pt.m_ka.z⟩
      ∧ (radiance pt scene ray weight n σ).world.rng = σ.rng
      ∧ (radiance pt scene ray weight n σ).world.log = σ.log ++ [Event.intersect ray] := by
  have hg : ¬ (n > pt.m_maxRecursion ∨ weight ≤ 0) := by
    rintro (h | h)
    · exact absurd hn (not_le.mpr h)
    · exact absurd hw (not_lt.mpr h)
  rw [radiance_miss_eq pt scene ray weight n σ hg hmiss]
  exact ⟨rfl, rfl, rfl⟩

/-- Witness of C3 on the empty scene at depth `0` with weight `2`. -/
theorem radiance_miss_witness :
    (0 : ℚ) < 2 ∧ (0 : Int) ≤ demoTracer.m_maxRecursion
      ∧ emptyScene.getAccelerator.intersect zRay = none
      ∧ (radiance demoTracer emptyScene zRay 2 0 (freshWorld 0 1)).value
          = some ⟨2 * demoTracer.m_ka.x, 2 * demoTracer.m_ka.y, 2 * demoTracer.m_ka.z⟩
      ∧ (radiance demoTracer emptyScene zRay 2 0 (freshWorld 0 1)).world.rng = (freshWorld 0 1).rng
      ∧ (radiance demoTracer emptyScene zRay 2 0 (freshWorld 0 1)).world.log
          = (freshWorld 0 1).log ++ [Event.intersect zRay] :=
  ⟨by norm_num, by decide, rfl,
    radiance_miss demoTracer emptyScene zRay 2 0 (freshWorld 0 1) (by norm_num) (by decide) rfl⟩

/-- C4. Combine step: at a hit that leaves the roulette block with weight `w`,
the returned colour is `w × Ke + Kd ⊙ ((BRDF/PDF) × Lr + (BTDF/PDF) × Lt)`,
where `Lr` is `radiance (Ray(P, Wr), w, n + 1)` when `Wr` has nonzero length
and the zero colour otherwise, and `Lt` likewise from `Wt` (run after `Lr`);
both recursive calls carry the same weight `w` and depth `n + 1`. -/
theorem radiance_combine (pt : Pathtracer) (scene : Scene) (ray : Ray) (weight : ℚ) (n : Int)
    (σ σ3 : World) (iSect : Intersection) (w : ℚ) (hw : 0 < weight)
    (hn : n ≤ pt.m_maxRecursion)
    (hhit : scene.getAccelerator.intersect ray = some iSect)
    (hsurv : roulette (Kd_max iSect.getMaterial.getKd) n weight
        ⟨σ.rng, σ.log ++ [Event.intersect ray] ++ [Event.getKd, Event.getKs, Event.getKe]⟩
      = (some w, σ3)) :
    let M := iSect.getMaterial
    let Wo := ray.getDirection.negate
    let P := iSect.getPosition
    let N := iSect.getNormal
    let Wr := (M.evalWi Wo N σ3.rng).1.1
    let Wt := (M.evalWi Wo N σ3.rng).1.2
    let BRDF := M.evalBRDF P N Wr Wo
    let BTDF := M.evalBTDF P N Wt Wo
    let PDF := M.evalPDF
    let σ4 : World := ⟨(M.evalWi Wo N σ3.rng).2,
      σ3.log ++ [Event.evalWi, Event.evalBRDF, Event.evalBTDF, Event.evalPDF]⟩
    let Lr : Option Vec3 × World :=
      if 0 < Wr.lengthSq then
        ((radiance pt scene ⟨P, Wr⟩ w (n + 1) σ4).value,
          (radiance pt scene ⟨P, Wr⟩ w (n + 1) σ4).world)
      else (some ⟨0, 0, 0⟩, σ4)
    let Lt : Option Vec3 × World :=
      if 0 < Wt.lengthSq then
        ((radiance pt scene ⟨P, Wt⟩ w (n + 1) Lr.2).value,
          (radiance pt scene ⟨P, Wt⟩ w (n + 1) Lr.2).world)
      else (some ⟨0, 0, 0⟩, Lr.2)
    (radiance pt scene ray weight n σ).value
        = combine w M.getKe M.getKd BRDF BTDF PDF Lr.1 Lt.1
      ∧ (radiance pt scene ray weight n σ).world = Lt.2
      ∧ ∀ lr lt : Vec3, PDF ≠ 0 → Lr.1 = some lr → Lt.1 = some lt →
          (radiance pt scene ray weight n σ).value
            = some (w • M.getKe + M.getKd * ((BRDF / PDF) • lr + (BTDF / PDF) • lt)) := by
  intro M Wo P N Wr Wt BRDF BTDF PDF σ4 Lr Lt
  have hrad := radiance_hit_eq pt scene ray weight n σ iSect (guard_passed pt weight n hw hn) hhit
  rw [record_record, hsurv] at hrad
  have hLr : (incoming (fun r w1 s => radiance pt scene r w1 (n + 1) s) P Wr w σ4).value = Lr.1
      ∧ (incoming (fun r w1 s => radiance pt scene r w1 (n + 1) s) P Wr w σ4).world = Lr.2 := by
    unfold incoming
    by_cases hr : 0 < Wr.lengthSq
    · simp [hr, Lr]
    · simp [hr, Lr]
      rfl
  have hLt : (incoming (fun r w1 s => radiance pt scene r w1 (n + 1) s) P Wt w Lr.2).value = Lt.1
      ∧ (incoming (fun r w1 s => radiance pt scene r w1 (n + 1) s) P Wt w Lr.2).world = Lt.2 := by
    unfold incoming
    by_cases ht : 0 < Wt.lengthSq
    · simp [ht, Lt]
    · simp [ht, Lt]
      rfl
  have hval : (radiance pt scene ray weight n σ).value
      = combine w M.getKe M.getKd BRDF BTDF PDF Lr.1 Lt.1 := by
    rw [hrad, ← hLr.1, ← hLt.1, ← hLr.2]
    rfl
  have hworld : (radiance pt scene ray weight n σ).world = Lt.2 := by
    rw [hrad, ← hLt.2, ← hLr.2]
    rfl
  refine ⟨hval, hworld, ?_⟩
  intro lr lt hpdf hlr hlt
  rw [hval, hlr, hlt]
  simp [combine, fdiv, hpdf]

/-- Witness of C4 on the lamp scene (diffuse `1/2`, emissive `1`, density `1`)
at depth `0`: the roulette block is skipped, both sampled directions are zero,
and the colour is `1 × Ke + Kd ⊙ ((1/1) × 0 + (1/1) × 0)`. -/
theorem radiance_combine_witness :
    (0 : ℚ) < 1 ∧ (0 : Int) ≤ demoTracer.m_maxRecursion
      ∧ (lampScene (1 / 2) 1 1).getAccelerator.intersect zRay = some (lampHit (1 / 2) 1 1)
      ∧ roulette (Kd_max (lampHit (1 / 2) 1 1).getMaterial.getKd) 0 1
          ⟨(freshWorld 0 1).rng, (freshWorld 0 1).log ++ [Event.intersect zRay]
            ++ [Event.getKd, Event.getKs, Event.getKe]⟩
          = (some 1, ⟨(freshWorld 0 1).rng, (freshWorld 0 1).log ++ [Event.intersect zRay]
            ++ [Event.getKd, Event.getKs, Event.getKe]⟩)
      ∧ (radiance demoTracer (lampScene (1 / 2) 1 1) zRay 1 0 (freshWorld 0 1)).value
          = some ((1 : ℚ) • (⟨1, 1, 1⟩ : Vec3)
              + (⟨1 / 2, 1 / 2, 1 / 2⟩ : Vec3)
                * (((1 : ℚ) / 1) • (⟨0, 0, 0⟩ : Vec3) + ((1 : ℚ) / 1) • (⟨0, 0, 0⟩ : Vec3))) := by
  have hr : roulette (Kd_max (lampHit (1 / 2) 1 1).getMaterial.getKd) 0 1
      ⟨(freshWorld 0 1).rng, (freshWorld 0 1).log ++ [Event.intersect zRay]
        ++ [Event.getKd, Event.getKs, Event.getKe]⟩
      = (some 1, ⟨(freshWorld 0 1).rng, (freshWorld 0 1).log ++ [Event.intersect zRay]
        ++ [Event.getKd, Event.getKs, Event.getKe]⟩) := by
    simp [roulette, Kd_max, lampHit, lamp]
  refine ⟨by norm_num, by decide, rfl, hr, ?_⟩
  exact (radiance_combine demoTracer (lampScene (1 / 2) 1 1) zRay 1 0 (freshWorld 0 1) _
    (lampHit (1 / 2) 1 1) 1 (by norm_num) (by decide) rfl hr).2.2 ⟨0, 0, 0⟩ ⟨0, 0, 0⟩
    (by simp [lampHit, lamp]) (by simp [lampHit, lamp, Vec3.lengthSq])
    (by simp [lampHit, lamp, Vec3.lengthSq])

/-- C5, as stated, fails when the sample equals the continuation probability.
On the lamp scene with `p = Kd_max = 1/2`, depth `4`, weight `1` and the drawn
sample `u = 1/2`, the sample does not exceed `p`, yet the path is terminated:
`radiance` returns `weight × Ke = (1,1,1)` and the log ends with the draw (the
material is never asked for directions), whereas continuing with the weight
multiplied by `1/p` would have returned `(2,2,2)`. -/
theorem roulette_tie_terminates :
    ¬ ((pseudorand (freshWorld 1 2).rng).1
        > Kd_max (lampHit (1 / 2) 1 1).getMaterial.getKd)
      ∧ (radiance demoTracer (lampScene (1 / 2) 1 1) zRay 1 4 (freshWorld 1 2)).value
          = some ⟨1, 1, 1⟩
      ∧ (radiance demoTracer (lampScene (1 / 2) 1 1) zRay 1 4 (freshWorld 1 2)).world.log
          = [Event.intersect zRay, Event.getKd, Event.getKs, Event.getKe, Event.pseudorand]
      ∧ (scatter (fun r w1 s => radiance demoTracer (lampScene (1 / 2) 1 1) r w1 (4 + 1) s)
            zRay (lampHit (1 / 2) 1 1) ⟨1 / 2, 1 / 2, 1 / 2⟩ ⟨1, 1, 1⟩ (1 * (1 / (1 / 2)))
            ⟨(pseudorand (freshWorld 1 2).rng).2,
              [Event.intersect zRay, Event.getKd, Event.getKs, Event.getKe,
                Event.pseudorand]⟩).value
          = some ⟨2, 2, 2⟩ := by
  have hg : ¬ ((4 : Int) > demoTracer.m_maxRecursion ∨ (1 : ℚ) ≤ 0) := by
    simp [demoTracer]
  have hrad := radiance_hit_eq demoTracer (lampScene (1 / 2) 1 1) zRay 1 4
    (freshWorld 1 2) (lampHit (1 / 2) 1 1) hg rfl
  have hr : roulette (Kd_max (lampHit (1 / 2) 1 1).getMaterial.getKd) 4 1
      (((freshWorld 1 2).record [Event.intersect zRay]).record
        [Event.getKd, Event.getKs, Event.getKe])
      = (none, ⟨(pseudorand (freshWorld 1 2).rng).2,
          [Event.intersect zRay, Event.getKd, Event.getKs, Event.getKe,
            Event.pseudorand]⟩) := by
    simp [roulette, Kd_max, lampHit, lamp, pseudorand, freshWorld, constRng, World.record]
  rw [hr] at hrad
  refine ⟨?_, ?_, ?_, ?_⟩
  · simp [Kd_max, lampHit, lamp, freshWorld, constRng, pseudorand]
  · rw [hrad]
    show some ((1 : ℚ) • (lampHit (1 / 2) 1 1).getMaterial.getKe) = _
    simp [lampHit, lamp, Vec3.smul_mk]
  · rw [hrad]
  · simp [scatter, incoming, combine, fdiv, lampHit, lamp, Vec3.lengthSq, Vec3.smul_mk,
      Vec3.mk_add_mk, Vec3.mk_mul_mk, Vec3.zero_eq]

/-- C5, amended. Russian-roulette step: at a hit with `weight > 0`, depth
`n ≤ maxRecursion` and `p = Kd_max`, a sample `u` is drawn exactly when `n > 3`
or `p = 0`.  When it is drawn, the path continues with the weight multiplied by
`1/p` if `u < p`, and it is terminated with `weight × Ke` otherwise, that is
exactly when `u ≥ p`.  When it is not drawn, the path continues with the weight
unchanged and the generator untouched. -/
theorem radiance_roulette (pt : Pathtracer) (scene : Scene) (ray : Ray) (weight : ℚ) (n : Int)
    (σ : World) (iSect : Intersection) (hw : 0 < weight) (hn : n ≤ pt.m_maxRecursion)
    (hhit : scene.getAccelerator.intersect ray = some iSect) :
    let M := iSect.getMaterial
    let p := Kd_max M.getKd
    let u := (pseudorand σ.rng).1
    let σ2 : World :=
      ⟨σ.rng, σ.log ++ [Event.intersect ray] ++ [Event.getKd, Event.getKs, Event.getKe]⟩
    let σ3 : World := ⟨(pseudorand σ.rng).2, σ2.log ++ [Event.pseudorand]⟩
    radiance pt scene ray weight n σ
      = if n > 3 ∨ p = 0 then
          if u < p then
            scatter (fun r w1 s => radiance pt scene r w1 (n + 1) s) ray iSect
              M.getKd M.getKe (weight * (1 / p)) σ3
          else
            ⟨some (weight • M.getKe), σ3, 0⟩
        else
          scatter (fun r w1 s => radiance pt scene r w1 (n + 1) s) ray iSect
            M.getKd M.getKe weight σ2 := by
  intro M p u σ2 σ3
  rw [radiance_hit_eq pt scene ray weight n σ iSect (guard_passed pt weight n hw hn) hhit,
    record_record]
  unfold roulette
  by_cases hd : n > 3 ∨ Kd_max iSect.getMaterial.getKd = 0
  · by_cases hu : (pseudorand σ.rng).1 < Kd_max iSect.getMaterial.getKd
    · simp only [hd, hu, if_true, p, u, M, σ3, σ2]
    · simp only [hd, hu, if_true, if_false, p, u, M, σ3, σ2]
  · simp only [hd, if_false, p, M, σ2]

/-- Witness of the amended C5 on the lamp scene at depth `4` with the drawn
sample `3/4 ≥ p = 1/2`: the path is terminated with `weight × Ke`. -/
theorem radiance_roulette_witness :
    (0 : ℚ) < 1 ∧ (4 : Int) ≤ demoTracer.m_maxRecursion
      ∧ (lampScene (1 / 2) 1 1).getAccelerator.intersect zRay = some (lampHit (1 / 2) 1 1)
      ∧ (radiance demoTracer (lampScene (1 / 2) 1 1) zRay 1 4 (freshWorld 3 4)).value
          = some ((1 : ℚ) • (⟨1, 1, 1⟩ : Vec3)) := by
  refine ⟨by norm_num, by decide, rfl, ?_⟩
  have h := radiance_roulette demoTracer (lampScene (1 / 2) 1 1) zRay 1 4 (freshWorld 3 4)
    (lampHit (1 / 2) 1 1) (by norm_num) (by decide) rfl
  rw [h]
  simp [Kd_max, lampHit, lamp, freshWorld, constRng, pseudorand]
  norm_num

/-- The rescale `1 / p` of the roulette block is never a division by zero:
when a sample was drawn and the path continues, `p` is positive, and so is the
new weight. -/
theorem roulette_continue_pos (p : ℚ) (n : Int) (weight w : ℚ) (σ σ1 : World)
    (hw : 0 < weight) (h : roulette p n weight σ = (some w, σ1)) :
    0 < w ∧ ((n > 3 ∨ p = 0) → 0 < p) := by
  unfold roulette at h
  by_cases hd : n > 3 ∨ p = 0
  · rw [if_pos hd] at h
    by_cases hu : (pseudorand σ.rng).1 < p
    · simp only [hu, if_true, Prod.mk.injEq, Option.some.injEq] at h
      have hp : 0 < p := lt_of_le_of_lt (σ.rng.nonneg σ.rng.pos) hu
      refine ⟨?_, fun _ => hp⟩
      rw [← h.1]
      positivity
    · simp [hu] at h
  · rw [if_neg hd] at h
    simp only [Prod.mk.injEq, Option.some.injEq] at h
    exact ⟨h.1 ▸ hw, fun hd2 => absurd hd2 hd⟩

/-- The roulette block does not look at the weight: scaling the weight scales
the weight it continues with, and nothing else. -/
theorem roulette_scale (c p : ℚ) (n : Int) (weight : ℚ) (σ : World) :
    roulette p n (c * weight) σ
      = ((roulette p n weight σ).1.map (fun w => c * w), (roulette p n weight σ).2) := by
  unfold roulette
  by_cases hd : n > 3 ∨ p = 0
  · by_cases hu : (pseudorand σ.rng).1 < p
    · simp [hd, hu, mul_assoc]
    · simp [hd, hu]
  · simp [hd]

/-- The return expression is homogeneous in the weight and the incoming light. -/
theorem combine_scale (c weight : ℚ) (Ke Kd : Vec3) (BRDF BTDF PDF : ℚ) (Lr Lt : Option Vec3) :
    combine (c * weight) Ke Kd BRDF BTDF PDF (Lr.map fun v => c • v) (Lt.map fun v => c • v)
      = (combine weight Ke Kd BRDF BTDF PDF Lr Lt).map fun v => c • v := by
  unfold combine fdiv
  by_cases hp : PDF = 0
  · simp [hp]
  · cases Lr with
    | none => simp [hp]
    | some lr =>
      cases Lt with
      | none => simp [hp]
      | some lt =>
        cases lr
        cases lt
        cases Ke
        cases Kd
        simp [hp, Vec3.smul_mk, Vec3.mk_add_mk, Vec3.mk_mul_mk]
        refine ⟨?_, ?_, ?_⟩ <;> ring

/-- The guarded recursive call is homogeneous in the weight when the recursive
call is. -/
theorem incoming_scale (rad : Ray → ℚ → World → Outcome) (c : ℚ)
    (hrad : ∀ r w s, 0 < w → rad r (c * w) s = (rad r w s).scale c)
    (P W : Vec3) (weight : ℚ) (σ : World) (hw : 0 < weight) :
    incoming rad P W (c * weight) σ = (incoming rad P W weight σ).scale c := by
  unfold incoming
  by_cases hl : 0 < W.lengthSq
  · simp only [hl, if_true, hrad _ _ _ hw]
    rfl
  · simp only [hl, if_false, Outcome.scale, Option.map_some']
    congr 2
    simp [Vec3.zero_eq, Vec3.smul_mk]

/-- The part of `radiance` after the roulette block is homogeneous in the
weight when the recursive call is. -/
theorem scatter_scale (rad : Ray → ℚ → World → Outcome) (c : ℚ)
    (hrad : ∀ r w s, 0 < w → rad r (c * w) s = (rad r w s).scale c)
    (ray : Ray) (iSect : Intersection) (Kd Ke : Vec3) (weight : ℚ) (σ : World)
    (hw : 0 < weight) :
    scatter rad ray iSect Kd Ke (c * weight) σ
      = (scatter rad ray iSect Kd Ke weight σ).scale c := by
  unfold scatter
  simp only [incoming_scale rad c hrad _ _ _ _ hw]
  simp only [Outcome.scale, combine_scale]

/-- Homogeneity of `radiance` in the weight, by induction on a bound of the
measure `maxRecursion + 1 − n`. -/
theorem radiance_scale_aux (pt : Pathtracer) (scene : Scene) (c : ℚ) (hc : 0 < c) (k : Nat) :
    ∀ (n : Int), (pt.m_maxRecursion + 1 - n).toNat ≤ k →
      ∀ (ray : Ray) (weight : ℚ) (σ : World), 0 < weight →
        radiance pt scene ray (c * weight) n σ = (radiance pt scene ray weight n σ).scale c := by
  induction k with
  | zero =>
    intro n hk ray weight σ hw
    have hg : n > pt.m_maxRecursion := by omega
    rw [radiance, dif_pos (Or.inl hg), radiance, dif_pos (Or.inl hg)]
    simp [Outcome.scale, COLOR_NULL, Vec3.smul_mk]
  | succ k ih =>
    intro n hk ray weight σ hw
    have hcw : 0 < c * weight := mul_pos hc hw
    by_cases hn : n > pt.m_maxRecursion
    · rw [radiance, dif_pos (Or.inl hn), radiance, dif_pos (Or.inl hn)]
      simp [Outcome.scale, COLOR_NULL, Vec3.smul_mk]
    · have hn2 : n ≤ pt.m_maxRecursion := not_lt.mp hn
      have hg := guard_passed pt weight n hw hn2
      have hgc := guard_passed pt (c * weight) n hcw hn2
      cases hi : scene.getAccelerator.intersect ray with
      | none =>
        rw [radiance_miss_eq pt scene ray _ n σ hgc hi, radiance_miss_eq pt scene ray _ n σ hg hi]
        cases hka : pt.m_ka
        simp [Outcome.scale, Vec3.smul_mk, mul_assoc]
      | some iSect =>
        rw [radiance_hit_eq pt scene ray _ n σ iSect hgc hi,
          radiance_hit_eq pt scene ray _ n σ iSect hg hi, roulette_scale]
        have hrec : ∀ (r : Ray) (w : ℚ) (s : World), 0 < w →
            (fun r w1 s => radiance pt scene r w1 (n + 1) s) r (c * w) s
              = ((fun r w1 s => radiance pt scene r w1 (n + 1) s) r w s).scale c :=
          fun r w s hw1 => ih (n + 1) (by omega) r w s hw1
        cases hr : roulette (Kd_max iSect.getMaterial.getKd) n weight
            ((σ.record [Event.intersect ray]).record
              [Event.getKd, Event.getKs, Event.getKe]) with
        | mk ow σ3 =>
          cases ow with
          | none =>
            cases hke : iSect.getMaterial.getKe
            simp [Outcome.scale, Vec3.smul_mk, mul_assoc]
          | some w =>
            have hwpos := (roulette_continue_pos _ _ _ _ _ _ hw hr).1
            simp only [Option.map_some']
            exact scatter_scale _ c hrec ray iSect _ _ w σ3 hwpos

/-- Homogeneity of `radiance` in the weight: for `c > 0` and `weight > 0`,
`radiance (ray, c × weight, n)` is `c × radiance (ray, weight, n)` and both runs
leave the same surroundings (same samples drawn, same queries made). -/
theorem radiance_scale (pt : Pathtracer) (scene : Scene) (c : ℚ) (hc : 0 < c) (ray : Ray)
    (weight : ℚ) (n : Int) (σ : World) (hw : 0 < weight) :
    radiance pt scene ray (c * weight) n σ = (radiance pt scene ray weight n σ).scale c :=
  radiance_scale_aux pt scene c hc _ n (le_refl _) ray weight σ hw

/-- The expectation over the roulette sample, at any hit where the roulette
applies with `0 < p`: if continuing with weight `w` (no roulette) returns the
colour `a`, then continuing with weight `w × (1/p)` returns `(1/p) × a`, so that
`p × (continued) + (1 − p) × (terminated)` is `a + (1 − p) × (w × Ke)`.  The
estimator is unbiased only up to the term `(1 − p) × w × Ke`. -/
theorem roulette_expectation (pt : Pathtracer) (scene : Scene) (ray : Ray) (iSect : Intersection)
    (Kd Ke : Vec3) (weight p : ℚ) (n : Int) (σ3 : World) (a : Vec3) (hw : 0 < weight)
    (hp : 0 < p)
    (ha : (scatter (fun r w1 s => radiance pt scene r w1 (n + 1) s) ray iSect Kd Ke weight
      σ3).value = some a) :
    (scatter (fun r w1 s => radiance pt scene r w1 (n + 1) s) ray iSect Kd Ke
        (weight * (1 / p)) σ3).value = some ((1 / p) • a)
      ∧ p • ((1 / p) • a) + (1 - p) • (weight • Ke) = a + (1 - p) • (weight • Ke) := by
  have hc : 0 < 1 / p := by positivity
  have hs := scatter_scale (fun r w1 s => radiance pt scene r w1 (n + 1) s) (1 / p)
    (fun r w s hw1 => radiance_scale_aux pt scene (1 / p) hc _ (n + 1) (le_refl _) r w s hw1)
    ray iSect Kd Ke weight σ3 hw
  refine ⟨?_, ?_⟩
  · rw [mul_comm, hs]
    simp [Outcome.scale, ha]
  · cases a
    cases Ke
    simp only [Vec3.smul_mk, Vec3.mk_add_mk, Vec3.mk.injEq]
    have hp0 : p ≠ 0 := ne_of_gt hp
    refine ⟨?_, ?_, ?_⟩ <;> field_simp

/-- C6 fails on an emissive surface. On the lamp scene (`Kd = 1/2`, so
`p = 1/2`; `Ke = 1`; density `1`; nothing reflected or transmitted) at depth
`4` with weight `1`: when the drawn sample is below `p` the path continues with
weight `1/p = 2` and `radiance` returns `(2,2,2)`; when it is not, `radiance`
returns `(1,1,1)`; continuing with weight `1` from the same surroundings without
roulette gives `(1,1,1)`.  The expectation `p × (2,2,2) + (1 − p) × (1,1,1)` is
`(3/2,3/2,3/2)`, not `(1,1,1)`: the emissive term is counted `2 − p` times. -/
theorem roulette_biased_on_emissive :
    Kd_max (lampHit (1 / 2) 1 1).getMaterial.getKd = 1 / 2
      ∧ (radiance demoTracer (lampScene (1 / 2) 1 1) zRay 1 4 (freshWorld 0 1)).value
          = some ⟨2, 2, 2⟩
      ∧ (radiance demoTracer (lampScene (1 / 2) 1 1) zRay 1 4 (freshWorld 3 4)).value
          = some ⟨1, 1, 1⟩
      ∧ (scatter (fun r w1 s => radiance demoTracer (lampScene (1 / 2) 1 1) r w1 (4 + 1) s)
            zRay (lampHit (1 / 2) 1 1) ⟨1 / 2, 1 / 2, 1 / 2⟩ ⟨1, 1, 1⟩ 1
            ⟨(pseudorand (freshWorld 0 1).rng).2,
              [Event.intersect zRay, Event.getKd, Event.getKs, Event.getKe,
                Event.pseudorand]⟩).value
          = some ⟨1, 1, 1⟩
      ∧ ((1 / 2 : ℚ) • (⟨2, 2, 2⟩ : Vec3) + ((1 : ℚ) - 1 / 2) • (⟨1, 1, 1⟩ : Vec3)
          = ⟨3 / 2, 3 / 2, 3 / 2⟩)
      ∧ (⟨3 / 2, 3 / 2, 3 / 2⟩ : Vec3) ≠ ⟨1, 1, 1⟩ := by
  have hc := radiance_hit_cases demoTracer (lampScene (1 / 2) 1 1) zRay 1 4 (freshWorld 0 1)
    (lampHit (1 / 2) 1 1) (by norm_num) (by decide) rfl
  have ht := radiance_hit_cases demoTracer (lampScene (1 / 2) 1 1) zRay 1 4 (freshWorld 3 4)
    (lampHit (1 / 2) 1 1) (by norm_num) (by decide) rfl
  refine ⟨?_, ?_, ?_, ?_, ?_, ?_⟩
  · simp [Kd_max, lampHit, lamp]
  · rw [hc]
    simp [Kd_max, scatter, incoming, combine, fdiv, lampHit, lamp, freshWorld, constRng, pseudorand,
      Vec3.lengthSq, Vec3.smul_mk, Vec3.mk_add_mk, Vec3.mk_mul_mk, Vec3.zero_eq]
  · rw [ht]
    simp [Kd_max, lampHit, lamp, freshWorld, constRng, pseudorand, Vec3.smul_mk]
    norm_num
  · simp [scatter, incoming, combine, fdiv, lampHit, lamp, Vec3.lengthSq, Vec3.smul_mk,
      Vec3.mk_add_mk, Vec3.mk_mul_mk, Vec3.zero_eq]
  · rw [Vec3.smul_mk, Vec3.smul_mk, Vec3.mk_add_mk]
    norm_num
  · norm_num

/-- C7, as stated, fails: on the lamp scene with sampling density `PDF = 0`, at
depth `0` with weight `1`, `radiance` consults the density, takes the quotients
`BRDF / PDF` and `BTDF / PDF` and returns no finite colour; in particular it
does not return `weight × Ke = (1,1,1)`. -/
theorem zero_pdf_not_guarded :
    (lampHit (1 / 2) 1 0).getMaterial.evalPDF = 0
      ∧ (radiance demoTracer (lampScene (1 / 2) 1 0) zRay 1 0 (freshWorld 0 1)).value = none
      ∧ (radiance demoTracer (lampScene (1 / 2) 1 0) zRay 1 0 (freshWorld 0 1)).value
          ≠ some ((1 : ℚ) • (lampHit (1 / 2) 1 0).getMaterial.getKe)
      ∧ Event.evalPDF
          ∈ (radiance demoTracer (lampScene (1 / 2) 1 0) zRay 1 0 (freshWorld 0 1)).world.log := by
  have h := radiance_hit_cases demoTracer (lampScene (1 / 2) 1 0) zRay 1 0 (freshWorld 0 1)
    (lampHit (1 / 2) 1 0) (by norm_num) (by decide) rfl
  have hv : (radiance demoTracer (lampScene (1 / 2) 1 0) zRay 1 0 (freshWorld 0 1)).value
      = none := by
    rw [h]
    simp [Kd_max, scatter, combine, fdiv, lampHit, lamp]
  refine ⟨rfl, hv, ?_, ?_⟩
  · rw [hv]
    simp
  · rw [h]
    simp [Kd_max, scatter, incoming, lampHit, lamp, freshWorld, Vec3.lengthSq]

/-- C7, amended. `radiance` has no zero-density guard: at every hit that leaves
the roulette block (with some weight `w`), the quotients `BRDF / PDF` and
`BTDF / PDF` are taken as they are, so when the material's `PDF` is `0` the
returned colour is not a finite value, whatever the emissive term. -/
theorem radiance_zero_pdf (pt : Pathtracer) (scene : Scene) (ray : Ray) (weight : ℚ) (n : Int)
    (σ σ3 : World) (iSect : Intersection) (w : ℚ) (hw : 0 < weight)
    (hn : n ≤ pt.m_maxRecursion)
    (hhit : scene.getAccelerator.intersect ray = some iSect)
    (hsurv : roulette (Kd_max iSect.getMaterial.getKd) n weight
        ⟨σ.rng, σ.log ++ [Event.intersect ray] ++ [Event.getKd, Event.getKs, Event.getKe]⟩
      = (some w, σ3))
    (hpdf : iSect.getMaterial.evalPDF = 0) :
    (radiance pt scene ray weight n σ).value = none := by
  rw [radiance_survive_eq pt scene ray weight n σ σ3 iSect w hw hn hhit hsurv]
  simp [scatter, combine, fdiv, hpdf]

/-- Witness of the amended C7 on the lamp scene with density `0` at depth `0`. -/
theorem radiance_zero_pdf_witness :
    (0 : ℚ) < 1 ∧ (0 : Int) ≤ demoTracer.m_maxRecursion
      ∧ (lampScene (1 / 2) 1 0).getAccelerator.intersect zRay = some (lampHit (1 / 2) 1 0)
      ∧ (lampHit (1 / 2) 1 0).getMaterial.evalPDF = 0
      ∧ (radiance demoTracer (lampScene (1 / 2) 1 0) zRay 1 0 (freshWorld 0 1)).value = none := by
  have hr : roulette (Kd_max (lampHit (1 / 2) 1 0).getMaterial.getKd) 0 1
      ⟨(freshWorld 0 1).rng, (freshWorld 0 1).log ++ [Event.intersect zRay]
        ++ [Event.getKd, Event.getKs, Event.getKe]⟩
      = (some 1, ⟨(freshWorld 0 1).rng, (freshWorld 0 1).log ++ [Event.intersect zRay]
        ++ [Event.getKd, Event.getKs, Event.getKe]⟩) := by
    simp [roulette, Kd_max, lampHit, lamp]
  exact ⟨by norm_num, by decide, rfl, rfl,
    radiance_zero_pdf demoTracer (lampScene (1 / 2) 1 0) zRay 1 0 (freshWorld 0 1) _
      (lampHit (1 / 2) 1 0) 1 (by norm_num) (by decide) rfl hr rfl⟩

/-- The nesting under the part of `radiance` after the roulette block is one
more than the nesting under the recursive calls. -/
theorem scatter_nest_le (rad : Ray → ℚ → World → Outcome) (b : Nat)
    (hrad : ∀ r w s, (rad r w s).nest ≤ b) (ray : Ray) (iSect : Intersection)
    (Kd Ke : Vec3) (weight : ℚ) (σ : World) :
    (scatter rad ray iSect Kd Ke weight σ).nest ≤ b + 1 := by
  have hin : ∀ P W w s, (incoming rad P W w s).nest ≤ b + 1 := by
    intro P W w s
    unfold incoming
    split_ifs
    · exact Nat.succ_le_succ (hrad _ _ _)
    · exact Nat.zero_le _
  unfold scatter
  exact max_le (hin _ _ _ _) (hin _ _ _ _)

/-- The nesting bound of `radiance`, by induction on a bound of the measure
`maxRecursion + 1 − n`. -/
theorem radiance_nest_aux (pt : Pathtracer) (scene : Scene) (k : Nat) :
    ∀ (n : Int), (pt.m_maxRecursion + 1 - n).toNat ≤ k → ∀ (ray : Ray) (weight : ℚ) (σ : World),
      (radiance pt scene ray weight n σ).nest ≤ (pt.m_maxRecursion - n + 1).toNat := by
  induction k with
  | zero =>
    intro n hk ray weight σ
    have hg : n > pt.m_maxRecursion ∨ weight ≤ 0 := Or.inl (by omega)
    rw [radiance, dif_pos hg]
    exact Nat.zero_le _
  | succ k ih =>
    intro n hk ray weight σ
    by_cases hg : n > pt.m_maxRecursion ∨ weight ≤ 0
    · rw [radiance, dif_pos hg]
      exact Nat.zero_le _
    · have hn : n ≤ pt.m_maxRecursion := by
        by_contra hc
        exact hg (Or.inl (lt_of_not_ge hc))
      cases hi : scene.getAccelerator.intersect ray with
      | none =>
        rw [radiance_miss_eq pt scene ray weight n σ hg hi]
        exact Nat.zero_le _
      | some iSect =>
        rw [radiance_hit_eq pt scene ray weight n σ iSect hg hi]
        have hrec : ∀ (r : Ray) (w : ℚ) (s : World),
            (radiance pt scene r w (n + 1) s).nest ≤ (pt.m_maxRecursion - (n + 1) + 1).toNat :=
          fun r w s => ih (n + 1) (by omega) r w s
        have hb : (pt.m_maxRecursion - (n + 1) + 1).toNat + 1
            = (pt.m_maxRecursion - n + 1).toNat := by omega
        split
        · exact Nat.zero_le _
        · rw [← hb]
          exact scatter_nest_le _ _ hrec _ _ _ _ _ _

/-- The function `radiance` is its body over itself at depth `n + 1`. -/
theorem radiance_eq_body (pt : Pathtracer) (scene : Scene) (ray : Ray) (weight : ℚ) (n : Int)
    (σ : World) :
    radiance pt scene ray weight n σ
      = radianceBody (fun r w1 s => radiance pt scene r w1 (n + 1) s) pt scene ray weight n
          σ := by
  rw [radiance]
  unfold radianceBody
  by_cases hg : n > pt.m_maxRecursion ∨ weight ≤ 0
  · rw [dif_pos hg, if_pos hg]
  · rw [dif_neg hg, if_neg hg]

/-- Under the guard the body makes no recursive call. -/
theorem radianceBody_guard (rad : Ray → ℚ → World → Outcome) (pt : Pathtracer) (scene : Scene)
    (ray : Ray) (weight : ℚ) (n : Int) (σ : World)
    (hg : n > pt.m_maxRecursion ∨ weight ≤ 0) :
    radianceBody rad pt scene ray weight n σ = ⟨some COLOR_NULL, σ, 0⟩ := by
  unfold radianceBody
  rw [if_pos hg]

/-- Below `INT_MAX` the `int` increment is the exact one. -/
theorem incInt_eq (n : Int) (h0 : -2 ^ 31 ≤ n) (h1 : n < 2 ^ 31 - 1) : incInt n = n + 1 := by
  unfold incInt toInt32
  split_ifs <;> omega

/-- At `INT_MAX` the `int` increment wraps to `INT_MIN`. -/
theorem incInt_max : incInt (2 ^ 31 - 1) = -2 ^ 31 := by
  unfold incInt toInt32
  split_ifs <;> omega

/-- The `int` increment is an `int`. -/
theorem incInt_range (n : Int) : -2 ^ 31 ≤ incInt n ∧ incInt n ≤ 2 ^ 31 - 1 := by
  unfold incInt toInt32
  split_ifs <;> omega

/-- For a maximum below `INT_MAX`, the run with `int` arithmetic on a stack of
more than `maxRecursion + 1 − n` frames is the run of `radiance`. -/
theorem radianceInt_agrees (pt : Pathtracer) (scene : Scene)
    (hmax : pt.m_maxRecursion < 2 ^ 31 - 1) (frames : Nat) :
    ∀ (n : Int), -2 ^ 31 ≤ n → (pt.m_maxRecursion + 1 - n).toNat < frames →
      ∀ (ray : Ray) (weight : ℚ) (σ : World),
        radianceInt pt scene frames ray weight n σ = radiance pt scene ray weight n σ := by
  induction frames with
  | zero =>
    intro n _ hk
    omega
  | succ k ih =>
    intro n hn hk ray weight σ
    rw [radiance_eq_body]
    show radianceBody (fun r w s => radianceInt pt scene k r w (incInt n) s) pt scene ray
      weight n σ = _
    by_cases hg : n > pt.m_maxRecursion
    · rw [radianceBody_guard _ pt scene ray weight n σ (Or.inl hg),
        radianceBody_guard _ pt scene ray weight n σ (Or.inl hg)]
    · have hinc : incInt n = n + 1 := incInt_eq n hn (by omega)
      have hrad : (fun r w s => radianceInt pt scene k r w (incInt n) s)
          = (fun r w1 s => radiance pt scene r w1 (n + 1) s) := by
        funext r w s
        rw [hinc]
        exact ih (n + 1) (by omega) (by omega) r w s
      rw [hrad]

/-- With `maxRecursion = INT_MAX` the guard on the depth never fires and the
increment wraps: in the closed mirror scene with `Kd = 1` and samples `0`, the
run with `int` arithmetic opens as many nested calls as the stack has frames,
and returns no colour. -/
theorem radianceInt_uses_every_frame (frames : Nat) :
    ∀ (n : Int) (ray : Ray) (weight : ℚ) (σ : World), -2 ^ 31 ≤ n → n ≤ 2 ^ 31 - 1 →
      0 < weight → (∀ i, σ.rng.tape i = 0) →
      (radianceInt intMaxTracer (mirrorScene 1 0) frames ray weight n σ).nest = frames
        ∧ (radianceInt intMaxTracer (mirrorScene 1 0) frames ray weight n σ).value = none := by
  induction frames with
  | zero =>
    intro n ray weight σ _ _ _ _
    exact ⟨rfl, rfl⟩
  | succ k ih =>
    intro n ray weight σ hn0 hn1 hw htape
    show (radianceBody (fun r w s => radianceInt intMaxTracer (mirrorScene 1 0) k r w
        (incInt n) s) intMaxTracer (mirrorScene 1 0) ray weight n σ).nest = k + 1
      ∧ (radianceBody (fun r w s => radianceInt intMaxTracer (mirrorScene 1 0) k r w
        (incInt n) s) intMaxTracer (mirrorScene 1 0) ray weight n σ).value = none
    have hg : ¬ (n > intMaxTracer.m_maxRecursion ∨ weight ≤ 0) := by
      rintro (h | h)
      · have : intMaxTracer.m_maxRecursion = 2 ^ 31 - 1 := rfl
        omega
      · exact absurd hw (not_lt.mpr h)
    have hp : Kd_max (mirrorHit 1 0).getMaterial.getKd = 1 := by
      simp [Kd_max, mirrorHit, mirror]
    have hr := incInt_range n
    have hsc : (mirrorScene 1 0).getAccelerator.intersect ray = some (mirrorHit 1 0) := rfl
    unfold radianceBody
    rw [if_neg hg, hsc]
    simp only []
    rw [hp]
    unfold roulette
    by_cases hd : n > 3 ∨ (1 : ℚ) = 0
    · have hu : (pseudorand (World.record (World.record σ [Event.intersect ray])
          [Event.getKd, Event.getKs, Event.getKe]).rng).1 < 1 := by
        show σ.rng.tape σ.rng.pos < 1
        rw [htape]
        norm_num
      simp only [if_pos hd, if_pos hu]
      have hIH := ih (incInt n) ⟨(mirrorHit 1 0).getPosition, (mirrorHit 1 0).getNormal⟩
        (weight * (1 / 1))
        ⟨(pseudorand σ.rng).2, σ.log ++ [Event.intersect ray]
          ++ [Event.getKd, Event.getKs, Event.getKe] ++ [Event.pseudorand]
          ++ [Event.evalWi, Event.evalBRDF, Event.evalBTDF, Event.evalPDF]⟩
        hr.1 hr.2 (by positivity) htape
      simp only [scatter, incoming, mirrorHit, mirror, Vec3.lengthSq, World.record] at hIH ⊢
      norm_num at hIH ⊢
      simp [hIH.1, hIH.2, combine, fdiv]
    · simp only [if_neg hd]
      have hIH := ih (incInt n) ⟨(mirrorHit 1 0).getPosition, (mirrorHit 1 0).getNormal⟩
        weight
        ⟨σ.rng, σ.log ++ [Event.intersect ray]
          ++ [Event.getKd, Event.getKs, Event.getKe]
          ++ [Event.evalWi, Event.evalBRDF, Event.evalBTDF, Event.evalPDF]⟩
        hr.1 hr.2 hw htape
      simp only [scatter, incoming, mirrorHit, mirror, Vec3.lengthSq, World.record] at hIH ⊢
      norm_num at hIH ⊢
      simp [hIH.1, hIH.2, combine, fdiv]

/-- C9, as stated, fails when the configured maximum is `INT_MAX`. With
`maxRecursion = 2^31 - 1`, a call at depth `n = 2^31 - 1` in the closed mirror
scene (`Kd = 1`, samples `0`, weight `1`) passes the guard, and its recursive
call is made at the `int` depth `n + 1 = -2^31`, which passes the guard again:
the measure `maxRecursion + 1 − n` grows instead of shrinking, and on a stack of
`1000` frames the run opens `1000` nested calls and returns no colour, although
the claimed bound `maxRecursion − n + 1` is `1`. -/
theorem depth_overflow_unbounded :
    incInt (2 ^ 31 - 1) = -2 ^ 31
      ∧ (intMaxTracer.m_maxRecursion - (2 ^ 31 - 1) + 1).toNat = 1
      ∧ (intMaxTracer.m_maxRecursion + 1 - (2 ^ 31 - 1)).toNat
          < (intMaxTracer.m_maxRecursion + 1 - incInt (2 ^ 31 - 1)).toNat
      ∧ (radianceInt intMaxTracer (mirrorScene 1 0) 1000 zRay 1 (2 ^ 31 - 1)
          (freshWorld 0 1)).nest = 1000
      ∧ (radianceInt intMaxTracer (mirrorScene 1 0) 1000 zRay 1 (2 ^ 31 - 1)
          (freshWorld 0 1)).value = none := by
  have hm : intMaxTracer.m_maxRecursion = 2 ^ 31 - 1 := rfl
  have hrun := radianceInt_uses_every_frame 1000 (2 ^ 31 - 1) zRay 1 (freshWorld 0 1)
    (by norm_num) (by norm_num) (by norm_num) (by intro i; simp [freshWorld, constRng])
  refine ⟨incInt_max, ?_, ?_, hrun.1, hrun.2⟩
  · rw [hm]
    norm_num
  · rw [hm, incInt_max]
    norm_num

/-- C9, amended. For a configured maximum below `INT_MAX` (`maxRecursion <
2^31 - 1`) and an `int` starting depth `n`, `radiance` terminates for every
scene, ray, weight and every stream of random samples and material answers: it
is a total function by well-founded recursion on `maxRecursion + 1 − n`; the
nesting of recursive calls opened beneath a call at depth `n` is at most
`maxRecursion − n + 1` (none when `n` is beyond the maximum), whatever the
roulette outcomes; every depth reached, from `n` to `n` plus that nesting, is an
`int`, so no increment `n + 1` overflows; and the run with `int` arithmetic on
any stack of more than `maxRecursion − n + 1` frames returns exactly what
`radiance` returns. -/
theorem radiance_nest_bound (pt : Pathtracer) (scene : Scene) (ray : Ray) (weight : ℚ)
    (n : Int) (σ : World) (hmax : pt.m_maxRecursion < 2 ^ 31 - 1) (hn : -2 ^ 31 ≤ n)
    (hn1 : n ≤ 2 ^ 31 - 1) :
    (radiance pt scene ray weight n σ).nest ≤ (pt.m_maxRecursion - n + 1).toNat
      ∧ (∀ d : Int, n ≤ d → d ≤ n + (radiance pt scene ray weight n σ).nest →
          -2 ^ 31 ≤ d ∧ d ≤ 2 ^ 31 - 1)
      ∧ ∀ frames : Nat, (pt.m_maxRecursion - n + 1).toNat < frames →
          radianceInt pt scene frames ray weight n σ = radiance pt scene ray weight n σ := by
  have hb := radiance_nest_aux pt scene _ n (le_refl _) ray weight σ
  refine ⟨hb, ?_, ?_⟩
  · intro d hd1 hd2
    omega
  · intro frames hf
    exact radianceInt_agrees pt scene hmax frames n hn (by omega) ray weight σ

/-- Witness of the amended C9 in the closed mirror scene with `maxRecursion = 1`
at depth `0`: at most `2` nested levels, and a stack of `3` frames suffices. -/
theorem radiance_nest_bound_witness :
    shallowTracer.m_maxRecursion < 2 ^ 31 - 1 ∧ (-2 ^ 31 : Int) ≤ 0
      ∧ (0 : Int) ≤ 2 ^ 31 - 1
      ∧ (radiance shallowTracer (mirrorScene 1 0) zRay 1 0 (freshWorld 0 1)).nest
          ≤ (shallowTracer.m_maxRecursion - 0 + 1).toNat
      ∧ radianceInt shallowTracer (mirrorScene 1 0) 3 zRay 1 0 (freshWorld 0 1)
          = radiance shallowTracer (mirrorScene 1 0) zRay 1 0 (freshWorld 0 1) := by
  have hm : shallowTracer.m_maxRecursion = 1 := rfl
  have hmax : shallowTracer.m_maxRecursion < 2 ^ 31 - 1 := by
    rw [hm]
    norm_num
  have h := radiance_nest_bound shallowTracer (mirrorScene 1 0) zRay 1 0 (freshWorld 0 1)
    hmax (by norm_num) (by norm_num)
  refine ⟨hmax, by norm_num, by norm_num, h.1, h.2.2 3 ?_⟩
  rw [hm]
  norm_num

/-- The bound of C9 is attained: in the closed mirror scene with
`maxRecursion = 1`, a call at depth `0` opens `1 − 0 + 1 = 2` nested levels. -/
theorem radiance_nest_attained (σ : World) :
    (radiance shallowTracer (mirrorScene 1 0) zRay 1 0 σ).nest = 2 := by
  have h2 : ∀ (r : Ray) (w : ℚ) (s : World),
      (radiance shallowTracer (mirrorScene 1 0) r w 2 s).nest = 0 := by
    intro r w s
    rw [radiance, dif_pos (Or.inl (by decide))]
  have h1 : ∀ (r : Ray) (s : World),
      (radiance shallowTracer (mirrorScene 1 0) r 1 1 s).nest = 1 := by
    intro r s
    rw [radiance_hit_cases shallowTracer (mirrorScene 1 0) r 1 1 s (mirrorHit 1 0)
      (by norm_num) (by decide) rfl]
    simp [Kd_max, mirrorHit, mirror, scatter, incoming, Vec3.lengthSq, h2]
  rw [radiance_hit_cases shallowTracer (mirrorScene 1 0) zRay 1 0 σ (mirrorHit 1 0)
    (by norm_num) (by decide) rfl]
  simp [Kd_max, mirrorHit, mirror, scatter, incoming, Vec3.lengthSq, h1]

/-- C11. `Kd_max` is the largest of the three diffuse channels: the nested
conditional `x > y && x > z ? x : y > z ? y : z` returns `max x (max y z)` for
every colour, ties included. -/
theorem Kd_max_eq_max (Kd : Vec3) : Kd_max Kd = max Kd.x (max Kd.y Kd.z) := by
  unfold Kd_max
  by_cases h1 : Kd.x > Kd.y ∧ Kd.x > Kd.z
  · rw [if_pos h1, max_eq_left (max_le (le_of_lt h1.1) (le_of_lt h1.2))]
  · rw [if_neg h1]
    have hx : Kd.x ≤ max Kd.y Kd.z := by
      by_contra hc
      have hlt := lt_of_not_ge hc
      exact h1 ⟨lt_of_le_of_lt (le_max_left _ _) hlt, lt_of_le_of_lt (le_max_right _ _) hlt⟩
    rw [max_eq_right hx]
    by_cases h2 : Kd.y > Kd.z
    · rw [if_pos h2, max_eq_left (le_of_lt h2)]
    · rw [if_neg h2, max_eq_right (not_lt.mp h2)]

/-- The ties named by C11, evaluated: `x = y > z` and `x = z > y`. -/
theorem Kd_max_ties :
    Kd_max ⟨2, 2, 1⟩ = 2 ∧ Kd_max ⟨2, 1, 2⟩ = 2 ∧ Kd_max ⟨1, 1, 1⟩ = 1 := by
  refine ⟨?_, ?_, ?_⟩ <;> norm_num [Kd_max]

/-- C12. `radiance` is positively homogeneous in the weight: for `w > 0`,
`radiance (ray, w, n)` is `w × radiance (ray, 1, n)` channel by channel (a
colour that is not finite stays so), and the two runs leave the same
surroundings and open the same nesting: the samples drawn, the queries made and
the recursion do not depend on the weight. -/
theorem radiance_homogeneous (pt : Pathtracer) (scene : Scene) (ray : Ray) (w : ℚ) (n : Int)
    (σ : World) (hw : 0 < w) :
    (radiance pt scene ray w n σ).value
        = (radiance pt scene ray 1 n σ).value.map (fun v => ⟨w * v.x, w * v.y, w * v.z⟩)
      ∧ (radiance pt scene ray w n σ).world = (radiance pt scene ray 1 n σ).world
      ∧ (radiance pt scene ray w n σ).nest = (radiance pt scene ray 1 n σ).nest := by
  have h := radiance_scale_aux pt scene w hw _ n (le_refl _) ray 1 σ one_pos
  rw [mul_one] at h
  rw [h]
  exact ⟨rfl, rfl, rfl⟩

/-- Witness of C12 in the closed mirror scene with weight `3` at depth `0`. -/
theorem radiance_homogeneous_witness :
    (0 : ℚ) < 3
      ∧ (radiance demoTracer (mirrorScene (1 / 2) 1) zRay 3 0 (freshWorld 0 1)).value
          = (radiance demoTracer (mirrorScene (1 / 2) 1) zRay 1 0 (freshWorld 0 1)).value.map
              (fun v => ⟨3 * v.x, 3 * v.y, 3 * v.z⟩)
      ∧ (radiance demoTracer (mirrorScene (1 / 2) 1) zRay 3 0 (freshWorld 0 1)).world
          = (radiance demoTracer (mirrorScene (1 / 2) 1) zRay 1 0 (freshWorld 0 1)).world
      ∧ (radiance demoTracer (mirrorScene (1 / 2) 1) zRay 3 0 (freshWorld 0 1)).nest
          = (radiance demoTracer (mirrorScene (1 / 2) 1) zRay 1 0 (freshWorld 0 1)).nest :=
  ⟨by norm_num,
    radiance_homogeneous demoTracer (mirrorScene (1 / 2) 1) zRay 3 0 (freshWorld 0 1)
      (by norm_num)⟩

/-- C13, as stated, fails for a negative `p` at a depth of at most `3`. On the
lamp scene with `Kd = (-1,-1,-1)`, so `p = Kd_max = -1`, at depth `0` with
weight `1`, the roulette block is not entered: no sample is drawn (the
generator has not advanced and the log holds no draw) and the path goes on to
query the material for directions, responses and density. -/
theorem negative_p_skips_roulette :
    Kd_max (lampHit (-1) 1 1).getMaterial.getKd = -1
      ∧ 0 ≤ (pseudorand (freshWorld 0 1).rng).1
      ∧ (radiance demoTracer (lampScene (-1) 1 1) zRay 1 0 (freshWorld 0 1)).world.rng.pos = 0
      ∧ (radiance demoTracer (lampScene (-1) 1 1) zRay 1 0 (freshWorld 0 1)).world.log
          = [Event.intersect zRay, Event.getKd, Event.getKs, Event.getKe, Event.evalWi,
              Event.evalBRDF, Event.evalBTDF, Event.evalPDF] := by
  have h := radiance_hit_cases demoTracer (lampScene (-1) 1 1) zRay 1 0 (freshWorld 0 1)
    (lampHit (-1) 1 1) (by norm_num) (by decide) rfl
  have hk : Kd_max (lampHit (-1) 1 1).getMaterial.getKd = -1 := by
    simp [Kd_max, lampHit, lamp]
  have hd : ¬ ((0 : Int) > 3 ∨ Kd_max (lampHit (-1) 1 1).getMaterial.getKd = 0) := by
    rw [hk]
    norm_num
  rw [if_neg hd] at h
  refine ⟨hk, (freshWorld 0 1).rng.nonneg (freshWorld 0 1).rng.pos, ?_, ?_⟩
  · rw [h]
    simp [scatter, incoming, lampHit, lamp, freshWorld, constRng, Vec3.lengthSq]
  · rw [h]
    simp [scatter, incoming, lampHit, lamp, freshWorld, Vec3.lengthSq]

/-- C13, amended. The roulette rescale never divides by zero. At a hit with
`weight > 0`, `n ≤ maxRecursion` and `p = Kd_max ≤ 0` (the drawn sample being
non-negative): when `p = 0`, or when `p < 0` and `n > 3`, the roulette block is
entered, one sample is drawn and the path is terminated with `weight × Ke`, the
weight being the original one; when `p < 0` and `n ≤ 3` the block is skipped
and the path continues with the weight unchanged.  Whenever the block is
entered and the path continues, that is whenever `1 / p` is taken, the sample
`u` satisfies `0 ≤ u < p`. -/
theorem radiance_roulette_nonpositive (pt : Pathtracer) (scene : Scene) (ray : Ray)
    (weight : ℚ) (n : Int) (σ : World) (iSect : Intersection) (hw : 0 < weight)
    (hn : n ≤ pt.m_maxRecursion) (hhit : scene.getAccelerator.intersect ray = some iSect)
    (hp : Kd_max iSect.getMaterial.getKd ≤ 0) :
    radiance pt scene ray weight n σ
        = (if n > 3 ∨ Kd_max iSect.getMaterial.getKd = 0 then
            ⟨some (weight • iSect.getMaterial.getKe),
              ⟨(pseudorand σ.rng).2,
                σ.log ++ [Event.intersect ray] ++ [Event.getKd, Event.getKs, Event.getKe]
                  ++ [Event.pseudorand]⟩, 0⟩
          else
            scatter (fun r w1 s => radiance pt scene r w1 (n + 1) s) ray iSect
              iSect.getMaterial.getKd iSect.getMaterial.getKe weight
              ⟨σ.rng,
                σ.log ++ [Event.intersect ray] ++ [Event.getKd, Event.getKs, Event.getKe]⟩)
      ∧ ∀ (q wt w : ℚ) (m : Int) (s s1 : World),
          roulette q m wt s = (some w, s1) → (m > 3 ∨ q = 0) →
            0 ≤ (pseudorand s.rng).1 ∧ (pseudorand s.rng).1 < q ∧ w = wt * (1 / q) := by
  refine ⟨?_, ?_⟩
  · rw [radiance_hit_cases pt scene ray weight n σ iSect hw hn hhit]
    have hu : ¬ ((pseudorand σ.rng).1 < Kd_max iSect.getMaterial.getKd) := by
      intro hlt
      exact absurd (lt_of_le_of_lt (σ.rng.nonneg σ.rng.pos) hlt) (not_lt.mpr hp)
    rw [if_neg hu]
  · intro q wt w m s s1 hr hd
    unfold roulette at hr
    rw [if_pos hd] at hr
    by_cases hu : (pseudorand s.rng).1 < q
    · simp only [hu, if_true, Prod.mk.injEq, Option.some.injEq] at hr
      exact ⟨s.rng.nonneg s.rng.pos, hu, hr.1.symm⟩
    · simp [hu] at hr

/-- Witness of the amended C13 on the lamp scene with `Kd = 0` at depth `0`:
the block is entered because `p = 0` and the path ends with `weight × Ke`. -/
theorem radiance_roulette_nonpositive_witness :
    (0 : ℚ) < 1 ∧ (0 : Int) ≤ demoTracer.m_maxRecursion
      ∧ (lampScene 0 1 1).getAccelerator.intersect zRay = some (lampHit 0 1 1)
      ∧ Kd_max (lampHit 0 1 1).getMaterial.getKd ≤ 0
      ∧ (radiance demoTracer (lampScene 0 1 1) zRay 1 0 (freshWorld 0 1)).value
          = some ((1 : ℚ) • (lampHit 0 1 1).getMaterial.getKe) := by
  have hk : Kd_max (lampHit 0 1 1).getMaterial.getKd ≤ 0 := by
    simp [Kd_max, lampHit, lamp]
  have hd : (0 : Int) > 3 ∨ Kd_max (lampHit 0 1 1).getMaterial.getKd = 0 := by
    right
    simp [Kd_max, lampHit, lamp]
  refine ⟨by norm_num, by decide, rfl, hk, ?_⟩
  rw [(radiance_roulette_nonpositive demoTracer (lampScene 0 1 1) zRay 1 0 (freshWorld 0 1)
    (lampHit 0 1 1) (by norm_num) (by decide) rfl hk).1, if_pos hd]

/-! ## Theorems about `Pathtracer::render` -/

/-- One pixel adds one film entry, the colour returned by `radiance` for the
pixel's camera ray with weight `1` and depth `0`. -/
theorem renderPixel_film (pt : Pathtracer) (scene : Scene)
    (avg : List (Option Vec3) → Vec3) (i j : Nat) (st : RenderState) :
    (renderPixel pt scene avg i j st).film.added
      = st.film.added
        ++ [(i, j, (radiance pt scene (scene.getCamera.calcCamRay i j) 1 0 st.world).value)] :=
  rfl

/-- One row of pixels: the entries added by the inner loop. -/
theorem render_row (pt : Pathtracer) (scene : Scene) (avg : List (Option Vec3) → Vec3)
    (j : Nat) (is : List Nat) :
    ∀ st : RenderState, ∃ new : List (Nat × Nat × Option Vec3),
      (is.foldl (fun st i => renderPixel pt scene avg i j st) st).film.added
          = st.film.added ++ new
        ∧ new.map pixelOf = is.map (fun i => (i, j))
        ∧ ∀ e ∈ new, ∃ σ : World,
            e.2.2 = (radiance pt scene (scene.getCamera.calcCamRay e.1 e.2.1) 1 0 σ).value := by
  induction is with
  | nil =>
    intro st
    exact ⟨[], by simp, rfl, by simp⟩
  | cons i rest ih =>
    intro st
    obtain ⟨new, hfilm, hpix, hval⟩ := ih (renderPixel pt scene avg i j st)
    refine ⟨(i, j, (radiance pt scene (scene.getCamera.calcCamRay i j) 1 0 st.world).value)
      :: new, ?_, ?_, ?_⟩
    · rw [List.foldl_cons, hfilm, renderPixel_film]
      simp
    · simp [hpix, pixelOf]
    · intro e he
      rcases List.mem_cons.mp he with rfl | he
      · exact ⟨st.world, rfl⟩
      · exact hval e he

/-- All rows: the entries added by the two nested loops. -/
theorem render_rows (pt : Pathtracer) (scene : Scene) (avg : List (Option Vec3) → Vec3)
    (is js : List Nat) :
    ∀ st : RenderState, ∃ new : List (Nat × Nat × Option Vec3),
      (js.foldl (fun st j => is.foldl (fun st i => renderPixel pt scene avg i j st) st)
          st).film.added = st.film.added ++ new
        ∧ new.map pixelOf = gridCoords js is
        ∧ ∀ e ∈ new, ∃ σ : World,
            e.2.2 = (radiance pt scene (scene.getCamera.calcCamRay e.1 e.2.1) 1 0 σ).value := by
  induction js with
  | nil =>
    intro st
    exact ⟨[], by simp, rfl, by simp⟩
  | cons j rest ih =>
    intro st
    obtain ⟨row, hrow, hrpix, hrval⟩ := render_row pt scene avg j is st
    obtain ⟨new, hfilm, hpix, hval⟩ :=
      ih (is.foldl (fun st i => renderPixel pt scene avg i j st) st)
    refine ⟨row ++ new, ?_, ?_, ?_⟩
    · rw [List.foldl_cons, hfilm, hrow, List.append_assoc]
    · rw [List.map_append, hrpix, hpix]
      rfl
    · intro e he
      rcases List.mem_append.mp he with he | he
      · exact hrval e he
      · exact hval e he

/-- Length of the pixel grid. -/
theorem gridCoords_length (js is : List Nat) :
    (gridCoords js is).length = js.length * is.length := by
  induction js with
  | nil => simp [gridCoords]
  | cons j rest ih =>
    simp [gridCoords, ih]
    ring

/-- A pixel occurs in one row as often as its column occurs, if it is that row. -/
theorem count_row (is : List Nat) (i j j0 : Nat) :
    (is.map (fun i => (i, j0))).count (i, j) = if j = j0 then is.count i else 0 := by
  induction is with
  | nil => simp
  | cons a rest ih =>
    rw [List.map_cons, List.count_cons, ih, List.count_cons]
    by_cases hj : j = j0 <;> by_cases ha : a = i <;> simp [hj, ha, Prod.ext_iff]
    exact fun h => hj h.symm

/-- Occurrences of a pixel in the grid. -/
theorem count_gridCoords (js is : List Nat) (i j : Nat) :
    (gridCoords js is).count (i, j) = js.count j * is.count i := by
  induction js with
  | nil => simp [gridCoords]
  | cons j0 rest ih =>
    rw [gridCoords, List.count_append, ih, count_row, List.count_cons]
    by_cases hj : j = j0
    · subst hj
      simp
      ring
    · have hj2 : ¬ (j0 = j) := fun h => hj h.symm
      simp [hj, hj2]

/-- Occurrences of a value among the values of a `for` loop. -/
theorem count_range (a n i : Nat) :
    (List.range' a n).count i = if a ≤ i ∧ i < a + n then 1 else 0 := by
  by_cases h : a ≤ i ∧ i < a + n
  · rw [if_pos h]
    exact List.count_eq_one_of_mem (List.nodup_range' a n) (List.mem_range'_1.mpr h)
  · rw [if_neg h]
    exact List.count_eq_zero_of_not_mem (fun hm => h (List.mem_range'_1.mp hm))

/-- An `int` in `[0, 2^31)` converts to `size_t` unchanged. -/
theorem toSizeT_of_nonneg (x : Int) (h0 : 0 ≤ x) (h1 : x < 2 ^ 31) : toSizeT x = x.toNat := by
  unfold toSizeT
  rw [Int.emod_eq_of_lt h0 (by omega)]

/-- The loop `for (size_t i = xa; i < xa + w; i++)` on a non-negative origin
and size visits `xa, xa + 1, ..., xa + w - 1`. -/
theorem forRange_viewport (xa w : Int) (hxa : 0 ≤ xa) (hw : 0 ≤ w) (hx : xa + w < 2 ^ 31) :
    forRange (toSizeT xa) (toSizeT (xa + w)) = List.range' xa.toNat w.toNat := by
  rw [toSizeT_of_nonneg xa hxa (by omega), toSizeT_of_nonneg (xa + w) (by omega) hx]
  unfold forRange
  congr 1
  omega

/-- C8. Coverage and frame of `render`: for a viewport with non-negative origin
`(xa, ya)` and non-negative size `(w, h)` (as `int`s whose sums `xa + w` and
`ya + h` are representable), the film receives, after what it held before,
exactly `w·h` new samples; each pixel `(i, j)` with `xa ≤ i < xa + w` and
`ya ≤ j < ya + h` receives exactly one of them and every other pixel none; and
the sample of a pixel is the colour returned by `radiance` for that pixel's
camera ray with weight `1` and depth `0`. -/
theorem render_coverage (pt : Pathtracer) (scene : Scene) (avg : List (Option Vec3) → Vec3)
    (w h xa ya : Int) (st : RenderState) (hxa : 0 ≤ xa) (hya : 0 ≤ ya) (hw : 0 ≤ w)
    (hh : 0 ≤ h) (hx : xa + w < 2 ^ 31) (hy : ya + h < 2 ^ 31) :
    ∃ new : List (Nat × Nat × Option Vec3),
      (render pt scene avg w h xa ya st).film.added = st.film.added ++ new
        ∧ new.length = (w * h).toNat
        ∧ (∀ i j : Nat, (new.map pixelOf).count (i, j)
            = if xa ≤ (i : Int) ∧ (i : Int) < xa + w ∧ ya ≤ (j : Int) ∧ (j : Int) < ya + h
              then 1 else 0)
        ∧ ∀ e ∈ new, ∃ σ : World,
            e.2.2 = (radiance pt scene (scene.getCamera.calcCamRay e.1 e.2.1) 1 0 σ).value := by
  obtain ⟨new, hfilm, hpix, hval⟩ := render_rows pt scene avg
    (List.range' xa.toNat w.toNat) (List.range' ya.toNat h.toNat) st
  refine ⟨new, ?_, ?_, ?_, hval⟩
  · unfold render
    rw [forRange_viewport xa w hxa hw hx, forRange_viewport ya h hya hh hy]
    exact hfilm
  · have hl : new.length = (new.map pixelOf).length := by simp
    rw [hl, hpix, gridCoords_length, List.length_range', List.length_range']
    have h1 : ((h.toNat * w.toNat : Nat) : Int) = w * h := by
      rw [Nat.cast_mul, Int.toNat_of_nonneg hw, Int.toNat_of_nonneg hh]
      ring
    omega
  · intro i j
    rw [hpix, count_gridCoords, count_range, count_range]
    by_cases hi : xa.toNat ≤ i ∧ i < xa.toNat + w.toNat
    · by_cases hj : ya.toNat ≤ j ∧ j < ya.toNat + h.toNat
      · have hin : xa ≤ (i : Int) ∧ (i : Int) < xa + w ∧ ya ≤ (j : Int) ∧ (j : Int) < ya + h := by
          omega
        rw [if_pos hi, if_pos hj, if_pos hin]
      · have hout : ¬ (xa ≤ (i : Int) ∧ (i : Int) < xa + w ∧ ya ≤ (j : Int)
            ∧ (j : Int) < ya + h) := by
          omega
        rw [if_pos hi, if_neg hj, if_neg hout]
    · have hout : ¬ (xa ≤ (i : Int) ∧ (i : Int) < xa + w ∧ ya ≤ (j : Int)
          ∧ (j : Int) < ya + h) := by
        omega
      rw [if_neg hi, if_neg hout, Nat.mul_zero]

/-- Witness of C8: the viewport of origin `(2, 3)` and size `4 × 5` on the
empty scene, starting from an empty film. -/
theorem render_coverage_witness :
    ∃ new : List (Nat × Nat × Option Vec3),
      (render demoTracer emptyScene (fun _ => ⟨0, 0, 0⟩) 4 5 2 3
          ⟨freshWorld 0 1, ⟨[]⟩, []⟩).film.added = [] ++ new
        ∧ new.length = ((4 : Int) * 5).toNat
        ∧ (∀ i j : Nat, (new.map pixelOf).count (i, j)
            = if (2 : Int) ≤ (i : Int) ∧ (i : Int) < 2 + 4 ∧ (3 : Int) ≤ (j : Int)
                ∧ (j : Int) < 3 + 5
              then 1 else 0)
        ∧ ∀ e ∈ new, ∃ σ : World,
            e.2.2 = (radiance demoTracer emptyScene
              (emptyScene.getCamera.calcCamRay e.1 e.2.1) 1 0 σ).value :=
  render_coverage demoTracer emptyScene (fun _ => ⟨0, 0, 0⟩) 4 5 2 3
    ⟨freshWorld 0 1, ⟨[]⟩, []⟩ (by decide) (by decide) (by decide) (by decide) (by decide)
    (by decide)

/-! ## Theorems about `Mesh::loadObj` -/

/-- What the statements `f.va = size + f.va; f.va++;` compute for a relative
index `-size ≤ k < 0`: `size + k + 1`, one more than the zero-based position
`size + k` of the vertex meant. -/
theorem relativeIndex_eq (size : Nat) (k : Int) (hs : (size : Int) < 2 ^ 31)
    (hk : -(size : Int) ≤ k) (hk0 : k < 0) : relativeIndex size k = size + k + 1 := by
  unfold relativeIndex toInt32 toSizeT
  have h1 : k % 2 ^ 64 = k + 2 ^ 64 := by omega
  have h2 : (size + (k % 2 ^ 64).toNat) % 2 ^ 64 = (size + k).toNat := by omega
  rw [h2]
  have h3 : (size + k).toNat % 2 ^ 32 = (size + k).toNat := by omega
  rw [h3]
  have h4 : (size + k).toNat < 2 ^ 31 := by omega
  rw [if_pos h4]
  omega

/-- A face whose three indices are positive is decremented: `k - 1`. -/
theorem normalise_positive (size : Nat) (a b c : Int) (ha : 0 ≤ a) (hb : 0 ≤ b) (hc : 0 ≤ c) :
    normalise size a b c = (a - 1, b - 1, c - 1) := by
  unfold normalise
  rw [if_neg (by omega)]

/-- C14 fails on relative indices. With three vertices read, the face line
`f -3 -2 -1` names, in OBJ terms, the vertices at zero-based positions
`0, 1, 2`; the normalisation of `loadObj` yields `1, 2, 3`, the last of which is
outside the vertex list, so the later access `vertices[3]` is out of bounds and
no mesh is constructed.  (Positive indices are converted as claimed:
`f 1 2 3` yields `0, 1, 2`.) -/
theorem relative_face_out_of_bounds :
    normalise 3 (-3) (-2) (-1) = (1, 2, 3)
      ∧ normalise 3 1 2 3 = (0, 1, 2)
      ∧ vecAt [⟨0, 0, 0⟩, ⟨1, 0, 0⟩, ⟨0, 1, 0⟩] 3 = Except.error MeshError.undefined
      ∧ Mesh.construct relFiles blankInfo originTransform (some (lamp 1 0 1))
          (some lampFactory) "rel.obj" = Except.error MeshError.undefined := by
  have hn : normalise 3 (-3) (-2) (-1) = (1, 2, 3) := by
    have h3 : ((3 : Nat) : Int) < 2 ^ 31 := by norm_num
    unfold normalise
    rw [if_pos (by norm_num), relativeIndex_eq 3 (-3) h3 (by norm_num) (by norm_num),
      relativeIndex_eq 3 (-2) h3 (by norm_num) (by norm_num),
      relativeIndex_eq 3 (-1) h3 (by norm_num) (by norm_num)]
    norm_num
  have hv : vecAt [⟨0, 0, 0⟩, ⟨1, 0, 0⟩, ⟨0, 1, 0⟩] 3 = Except.error MeshError.undefined := by
    simp [vecAt, toSizeT]
  refine ⟨hn, ?_, hv, ?_⟩
  · rw [normalise_positive 3 1 2 3 (by norm_num) (by norm_num) (by norm_num)]
    norm_num
  · simp [Mesh.construct, Mesh.constructWith, Shape.store, loadObj, relFiles, objLines,
      objLine, buildTriangles,
      buildTriangle, bind, Except.bind, hn, vecAt, toSizeT]

/-- The pointers returned by the factory are not tested either: with a present
material, a factory that returns null pointers and the model `late.obj`, which
takes its material from a library, construction succeeds and the triangle
carries a null material. -/
theorem mesh_null_library_material :
    (Mesh.construct libFiles blankInfo originTransform (some (lamp 1 0 1)) (some nullFactory)
        "late.obj").toOption.map (fun mesh => mesh.m_triangles.map fun t => t.material.isSome)
      = some [false] := by
  simp [Mesh.construct, Mesh.constructWith, Shape.store, loadObj, libFiles, objLines, objLine,
    loadMTL, mtlLines, mtlLine, mapInsert, mapModify, mapAt, makeMaterial, blankInfo,
    nullFactory, normalise, buildTriangles, buildTriangle, vecAt, toSizeT, Except.toOption,
    bind, Except.bind, Except.map, List.lookup]

end Mirage
